import Mathlib

/-!
Verification development for the PyAuthServer networked replication core.

The repository sources embedded here are:
  network/connection.py   (Connection, ClientConnection, ServerConnection)
  network/actors.py       (Replicable registry behaviour)
  network/signals/signals.py (Signal and CachedSignal)
  bge_network/physics.py  (PhysicsSystem, ServerPhysics)

Modules that the sources import but that are absent from the repository
snapshot (channel.py, packet.py, the instance-registration base of
network/bases.py, handler packers) are modelled from the specification;
each such definition carries a doc comment beginning with
Modelled from the spec.
-/

namespace PyAuth

/-- Wire protocols, from network/enums.py usage in connection.py. -/
inductive Protocol where
  | replication_init
  | replication_update
  | replication_del
  | method_invoke
deriving DecidableEq, Repr

/-- Modelled from the spec: network/packet.py is absent from the snapshot.
A packet is a protocol tag, a payload byte string and a reliability flag. -/
structure Packet where
  protocol : Protocol
  payload : List Nat
  reliable : Bool
deriving DecidableEq, Repr

/-- Modelled from the spec: packet size is the payload length plus a
protocol byte; only the relative magnitudes matter to the claims. -/
def Packet.size (p : Packet) : Nat := p.payload.length + 1

/-- Modelled from the spec: a PacketCollection is the ordered list of
packets sent atomically in one tick. -/
structure PacketCollection where
  members : List Packet
deriving DecidableEq, Repr

def PacketCollection.size (c : PacketCollection) : Nat :=
  (c.members.map Packet.size).sum

/-- Replication roles, from network/enums.py Roles. -/
inductive Role where
  | noRole
  | dumb_proxy
  | simulated_proxy
  | autonomous_proxy
  | authority
deriving DecidableEq, Repr

/-- A pair of local and remote roles, swapped on the wire. -/
structure RolePair where
  localRole : Role
  remoteRole : Role
deriving DecidableEq, Repr

/-- Modelled from the spec: the u16 big-endian id packer of the
replicable handler (handler_interfaces is absent from the snapshot). -/
def packId (n : Nat) : List Nat := [n / 256 % 256, n % 256]

/-- Modelled from the spec: inverse of packId on a payload prefix. -/
def unpackId (bs : List Nat) : Nat :=
  match bs with
  | a :: b :: _ => a * 256 + b
  | [a] => a * 256
  | [] => 0

/-- Modelled from the spec: the length-prefixed string packer. -/
def packString (s : String) : List Nat :=
  s.length :: s.toList.map Char.toNat

/-- Modelled from the spec: unpack a length-prefixed string from a
payload prefix. -/
def unpackString (bs : List Nat) : String :=
  match bs with
  | n :: rest => String.mk ((rest.take n).map Char.ofNat)
  | [] => ""

/-- Modelled from the spec: consumed size of a length-prefixed string. -/
def stringSize (bs : List Nat) : Nat :=
  match bs with
  | n :: _ => n + 1
  | [] => 1

/-- Modelled from the spec: the one-byte integer packer used for the
is_host flag. -/
def packByte (b : Bool) : List Nat := [if b then 1 else 0]

/-- Modelled from the spec: unpack the leading integer byte. -/
def unpackByte (bs : List Nat) : Nat := bs.headD 0

/-- Modelled from the spec: a value serialiser of a declared byte width;
byte i of a value v is v / 256 ^ i mod 256. -/
def packValue (v w : Nat) : List Nat :=
  (List.range w).map fun i => v / 256 ^ i % 256

/-- Modelled from the spec: the varint encoder; one byte below 128,
two bytes otherwise (the values arising in the model are small). -/
def packVarint (n : Nat) : List Nat :=
  if n < 128 then [n] else [128 + n % 128, n / 128]

/-- Update every association-list entry whose key matches. Keys are
unique in the states built here, so this is the in-place object update
of the Python sources. -/
def updateKey {α : Type} (k : Nat) (f : α → α) : List (Nat × α) → List (Nat × α) :=
  List.map fun p => if p.1 = k then (p.1, f p.2) else p

/-- Remove the association-list entry for a key, mirroring dict.pop. -/
def removeKey {α : Type} (k : Nat) : List (Nat × α) → List (Nat × α) :=
  List.filter fun p => decide (p.1 ≠ k)

/-- Replace the entry for a key, or append it when absent, mirroring
dict item assignment. -/
def setKey {α : Type} (k : Nat) (v : α) (l : List (Nat × α)) : List (Nat × α) :=
  if (List.lookup k l).isSome then updateKey k (fun _ => v) l else l ++ [(k, v)]

/-! ## Replicable registry (network/actors.py with the registration base
modelled from the spec, section 4.2) -/

/-- A registry object: the per-instance flags of network/actors.py
Replicable.__init__ together with its class name and declared roles. -/
structure RObj where
  cls : String
  localAuthority : Bool
  static : Bool
  roles : RolePair
  uppermost : Option Nat
deriving DecidableEq, Repr

/-- The process-wide graph of the registry: instance id to object. -/
abbrev Graph := List (Nat × RObj)

/-- Modelled from the spec: allocate_id returns an unused id; the model
returns one above the largest id in the graph. -/
def allocateId {α : Type} (g : List (Nat × α)) : Nat :=
  (g.map Prod.fst).foldl max 0 + 1

/-- Embedding of Replicable.request_registration on a None instance id
(actors.py lines 66 to 90): the object gains local authority and the
base allocates a fresh id.  The base registration itself is modelled
from the spec, section 4.2. -/
def registerAuto (g : Graph) (obj : RObj) : Graph × Nat :=
  let obj2 := { obj with localAuthority := true }
  let k := allocateId g
  (g ++ [(k, obj2)], k)

/-- Embedding of Replicable.request_registration on a concrete instance
id (actors.py lines 60 to 90).  When the id is occupied, the occupant
is removed, its local authority is asserted, the claimant registers the
id, and the occupant is re-registered with a fresh auto id; the final
base registration of line 90 is repeated as in the source. -/
def requestRegistration (g : Graph) (obj : RObj) (iid : Nat) : Except String Graph :=
  match List.lookup iid g with
  | Option.none => Except.ok (setKey iid obj g)
  | some occ =>
    if occ.localAuthority then
      let g1 := removeKey iid g
      let g2 := setKey iid obj g1
      let g3 := (registerAuto g2 occ).1
      Except.ok (setKey iid obj g3)
    else
      Except.error ("Authority over instance id " ++ toString iid ++ " is unresolveable")

/-- Embedding of Replicable._create_or_return (actors.py lines 38 to 58)
with register true, as invoked from ClientConnection.set_replication.
The class table gives each class name its declared default roles; a new
instance starts without local authority and non static.  The returned id
is the graph slot holding the object the source returns. -/
def createOrReturn (classTable : String → RolePair) (g : Graph) (clsName : String)
    (iid : Nat) : Except String (Graph × Nat) :=
  let fresh : RObj :=
    { cls := clsName, localAuthority := false, static := false,
      roles := classTable clsName, uppermost := Option.none }
  match List.lookup iid g with
  | Option.none =>
    (requestRegistration g fresh iid).map fun g2 => (g2, iid)
  | some existing =>
    if existing.localAuthority then
      (requestRegistration g fresh iid).map fun g2 => (g2, iid)
    else
      Except.ok (g, iid)

/-! ## Server connection (network/connection.py) with the per-object
channel modelled from the spec, section 4.5 -/

/-- Modelled from the spec: the condition generator of a replicated
attribute (section 4.5 and the per-class generators of actors.py)
reduced to the shapes occurring in the sources. -/
inductive CondKind where
  | always
  | ifInitial
  | ifComplaint
  | ifComplaintOrInitial
  | ifOwner
deriving DecidableEq, Repr

/-- Evaluate a condition kind on (is_owner, is_complaint, is_initial). -/
def condEval (c : CondKind) (isOwner isComplaint isInitial : Bool) : Bool :=
  match c with
  | CondKind.always => true
  | CondKind.ifInitial => isInitial
  | CondKind.ifComplaint => isComplaint
  | CondKind.ifComplaintOrInitial => isComplaint || isInitial
  | CondKind.ifOwner => isOwner

/-- Modelled from the spec: a declared attribute slot of a replicable
(section 3 and 4.1): current value, packed byte width, condition kind,
complain flag and the sticky complaint bit. -/
structure Attr where
  value : Nat
  width : Nat
  cond : CondKind
  complainFlag : Bool
  complained : Bool
deriving DecidableEq, Repr

/-- A registered replicable as seen by a server connection: the fields
of actors.py and the scheduling fields read by connection.py. -/
structure Rep where
  iid : Nat
  typeName : String
  roles : RolePair
  relevantToOwner : Bool
  priority : Int
  period : Int
  uppermost : Option Nat
  attrs : List Attr
deriving DecidableEq, Repr

/-- Modelled from the spec: the per-(connection, replicable) server
channel state of section 3: last-sent snapshot per attribute, last
replication time, the is_initial flag and the FIFO rpc queue. -/
structure SChannel where
  lastSent : List (Option Nat)
  last_replication_time : Int
  is_initial : Bool
  rpcQueue : List (List Nat × Bool)
deriving DecidableEq, Repr

/-- Modelled from the spec: the channel created on registration
(is_initial true, empty snapshot and queue). -/
def freshChannel (nattrs : Nat) : SChannel :=
  { lastSent := List.replicate nattrs Option.none,
    last_replication_time := 0, is_initial := true, rpcQueue := [] }

/-- The state of a ServerConnection together with the world context it
reads: the replicable graph, the channel map, its own replicable id,
WorldInfo.elapsed, the external relevance rule and the cached_packets
set of ServerConnection.__init__ (modelled as a list in insertion
order; the source never reads it, so set semantics are immaterial). -/
structure ServerState where
  reps : List Rep
  channels : List (Nat × SChannel)
  ownId : Option Nat
  now : Int
  rules : Option Nat → Nat → Bool
  cached_packets : List Packet

/-- Embedding of Connection.is_owner (connection.py lines 39 to 49):
compare the uppermost owner id with the id of the connection
replicable; any missing link yields false. -/
def isOwner (st : ServerState) (r : Rep) : Bool :=
  match r.uppermost, st.ownId with
  | some pid, some oid => pid == oid
  | _, _ => false

/-- Embedding of Connection.relevant_replicables (connection.py lines
55 to 71): walk the graph, skip replicables whose remote role is none,
pair each with its channel and the conjunction of ownership and
relevant_to_owner.  A missing channel raises KeyError in the source;
invariant 2 of the spec guarantees presence, and the model skips such
entries. -/
def relevantReplicables (st : ServerState) : List (Rep × Bool × SChannel) :=
  st.reps.filterMap fun r =>
    if r.roles.remoteRole == Role.noRole then Option.none
    else
      match List.lookup r.iid st.channels with
      | some ch => some (r, isOwner st r && r.relevantToOwner, ch)
      | Option.none => Option.none

/-- Embedding of ServerConnection.get_replication_priority (connection.py
lines 239 to 244): the key is priority plus elapsed fraction minus one,
represented exactly as the fraction with this numerator over the period
as denominator, compared by cross multiplication (update periods are
positive). -/
def priorityNum (now : Int) (e : Rep × Bool × SChannel) : Int :=
  (e.1.priority - 1) * e.1.period + (now - e.2.2.last_replication_time)

/-- The denominator of the replication priority key. -/
def priorityDen (e : Rep × Bool × SChannel) : Int := e.1.period

/-- Whether the priority key of a is at most the priority key of b,
decided by cross multiplication of the exact fractions. -/
def keyLe (now : Int) (a b : Rep × Bool × SChannel) : Bool :=
  decide (priorityNum now a * priorityDen b ≤ priorityNum now b * priorityDen a)

/-- Stable descending insertion used to embed sorted with reverse true. -/
def insertDesc {α : Type} (le : α → α → Bool) (x : α) : List α → List α
  | [] => [x]
  | y :: ys => if le x y then y :: insertDesc le x ys else x :: y :: ys

/-- Stable descending sort by a comparator, embedding
Connection.prioritised_replicables (connection.py lines 73 to 76). -/
def sortDesc {α : Type} (le : α → α → Bool) (xs : List α) : List α :=
  xs.foldl (fun acc x => insertDesc le x acc) []

/-- The prioritised relevance list of a server connection. -/
def prioritised (st : ServerState) : List (Rep × Bool × SChannel) :=
  sortDesc (keyLe st.now) (relevantReplicables st)

/-- Modelled from the spec: Channel.get_attributes (section 4.5,
channel.py absent).  Computes the complaint flag, filters attributes by
their condition on (is_owner, is_complaint, is_initial), diffs against
the last-sent snapshot, and when anything changed emits the varint
count followed by each attribute index and value bytes.  It updates the
snapshot, clears the complaint bits of the sent attributes, sets
is_initial to false and stamps last_replication_time (spec section 4.6
step 6). -/
def getAttributes (r : Rep) (ch : SChannel) (isOwnerFlag : Bool) (now : Int) :
    List Nat × Rep × SChannel :=
  let isComplaint := r.attrs.any Attr.complained
  let indexed := r.attrs.enum
  let changed := indexed.filter fun p =>
    condEval p.2.cond isOwnerFlag isComplaint ch.is_initial &&
      ((ch.lastSent.getD p.1 Option.none) != some p.2.value)
  let payload :=
    if changed.isEmpty then []
    else packVarint changed.length ++
      (changed.map fun p => packVarint p.1 ++ packValue p.2.value p.2.width).flatten
  let lastSent2 := changed.foldl (fun ls p => ls.set p.1 (some p.2.value)) ch.lastSent
  let sentIdx := changed.map Prod.fst
  let attrs2 := r.attrs.enum.map fun p =>
    if sentIdx.contains p.1 then { p.2 with complained := false } else p.2
  (payload,
   { r with attrs := attrs2 },
   { ch with lastSent := lastSent2, is_initial := false,
             last_replication_time := now })

/-- Accumulator threaded through one send: the collection so far and
the mutable channel and replicable maps. -/
structure SendAcc where
  coll : List Packet
  channels : List (Nat × SChannel)
  reps : List Rep
deriving Repr

/-- Update the graph entry for a replicable id. -/
def updateRep (id2 : Nat) (f : Rep → Rep) (rs : List Rep) : List Rep :=
  rs.map fun r => if r.iid == id2 then f r else r

/-- Embedding of the per-item body of Connection.get_method_replication
(connection.py lines 78 to 98): when the connection owns the replicable
and the channel has queued RPC calls, drain them into method_invoke
packets whose payload is the packed id followed by the call bytes. -/
def methodStep (acc : SendAcc) (item : Rep × Bool × SChannel) : SendAcc :=
  let r := item.1
  let isOwnerFlag := item.2.1
  let ch := (List.lookup r.iid acc.channels).getD item.2.2
  if isOwnerFlag && !ch.rpcQueue.isEmpty then
    let pkts := ch.rpcQueue.map fun c =>
      Packet.mk Protocol.method_invoke (packId r.iid ++ c.1) c.2
    { acc with coll := acc.coll ++ pkts,
               channels := updateKey r.iid (fun c => { c with rpcQueue := [] }) acc.channels }
  else acc

/-- The reliable replication_init packet of connection.py lines 281 to
292: packed id, packed class name and the packed host flag. -/
def initPacketFor (ownId : Option Nat) (r : Rep) : Packet :=
  Packet.mk Protocol.replication_init
    (packId r.iid ++ packString r.typeName ++ packByte (some r.iid == ownId)) true

/-- The emitting tail of the attribute stage (connection.py lines 279
to 309): when the channel is initial, insert the reliable init packet
at the front of the whole collection; then call get_attributes and
append a reliable replication_update packet when bytes were produced,
storing the updated channel and replicable. -/
def attributeEmit (now : Int) (ownId : Option Nat) (acc : SendAcc)
    (isOwnerFlag : Bool) (r : Rep) (ch : SChannel) : SendAcc :=
  let coll1 := if ch.is_initial then initPacketFor ownId r :: acc.coll else acc.coll
  let res := getAttributes r ch isOwnerFlag now
  let coll2 :=
    if res.1.isEmpty then coll1
    else coll1 ++ [Packet.mk Protocol.replication_update (packId r.iid ++ res.1) true]
  { coll := coll2,
    channels := updateKey r.iid (fun _ => res.2.2) acc.channels,
    reps := updateRep r.iid (fun _ => res.2.1) acc.reps }

/-- Embedding of the per-item body of
ServerConnection.get_attribute_replication (connection.py lines 246 to
311).  The freeBandwidth flag is the guard of line 266: the source
computes free_bandwidth once from the initial budget (line 262) and,
although it accumulates used_bandwidth, never re-reads it, so the flag
is constant across the loop.  When the guard holds: skip unless the
update period has elapsed and the item is owned or relevant, else run
the emitting tail on the current replicable and channel values. -/
def attributeStep (now : Int) (rules : Option Nat → Nat → Bool) (ownId : Option Nat)
    (freeBandwidth : Bool) (acc : SendAcc) (item : Rep × Bool × SChannel) : SendAcc :=
  if freeBandwidth then
    let r := ((acc.reps.filter fun x => x.iid == item.1.iid).headD item.1)
    let ch := (List.lookup r.iid acc.channels).getD item.2.2
    if now - ch.last_replication_time < r.period ||
        !(item.2.1 || rules ownId r.iid) then acc
    else attributeEmit now ownId acc item.2.1 r ch
  else acc

/-- One pipeline item of ServerConnection.send: the method stage yields
each item into the attribute stage, so per item the RPC packets are
stored first and the replication packets follow. -/
def processItem (now : Int) (rules : Option Nat → Nat → Bool) (ownId : Option Nat)
    (networkTick freeBandwidth : Bool) (acc : SendAcc) (item : Rep × Bool × SChannel) :
    SendAcc :=
  let acc1 := methodStep acc item
  if networkTick then attributeStep now rules ownId freeBandwidth acc1 item
  else acc1

/-- Embedding of ServerConnection.send (connection.py lines 339 to 362).
Both stages are generators, so when collection.size is read on line 352
nothing has been appended yet and the subtraction removes zero; the
attribute stage only runs on a network tick.  The cached_packets set is
not read anywhere in send. -/
def serverSend (st : ServerState) (networkTick : Bool) (availableBandwidth : Int) :
    PacketCollection × ServerState :=
  let items := prioritised st
  let avail2 : Int := max 0 (availableBandwidth - (PacketCollection.mk []).size)
  let freeBandwidth := decide (0 < avail2)
  let acc := items.foldl
    (processItem st.now st.rules st.ownId networkTick freeBandwidth)
    (SendAcc.mk [] st.channels st.reps)
  (PacketCollection.mk acc.coll,
   { st with channels := acc.channels, reps := acc.reps })

/-- Embedding of ServerConnection.notify_unregistration (connection.py
lines 228 to 237): add a reliable replication_del packet carrying the
channel packed id to cached_packets, then pop the channel. -/
def notifyUnregistration (st : ServerState) (targetId : Nat) : ServerState :=
  { st with
    cached_packets := st.cached_packets ++
      [Packet.mk Protocol.replication_del (packId targetId) true],
    channels := removeKey targetId st.channels,
    reps := st.reps.filter fun r => r.iid != targetId }

/-- Embedding of Connection.notify_registration (connection.py lines 30
to 34): create a fresh channel for the registered replicable, here
together with the graph insertion that precedes the signal. -/
def notifyRegistration (st : ServerState) (r : Rep) : ServerState :=
  { st with reps := st.reps ++ [r],
            channels := setKey r.iid (freshChannel r.attrs.length) st.channels }

/-- Embedding of ServerConnection.receive (connection.py lines 313 to
337).  For each method_invoke packet the channel is fetched by plain
dict indexing, so an unknown instance id raises KeyError; with a known
channel, an owner check gates the rpc invocation, which the model
records as an invocation log entry (channel.invoke_rpc_call is absent
from the snapshot). -/
def serverReceiveAux (st : ServerState) (log : List (Nat × List Nat)) :
    List Packet → Except String (ServerState × List (Nat × List Nat))
  | [] => Except.ok (st, log)
  | p :: rest =>
    if p.protocol == Protocol.method_invoke then
      let instanceId := unpackId p.payload
      match List.lookup instanceId st.channels with
      | Option.none =>
        Except.error ("KeyError: " ++ toString instanceId)
      | some _ =>
        match (st.reps.filter fun r => r.iid == instanceId) with
        | r :: _ =>
          if isOwner st r then
            serverReceiveAux st (log ++ [(instanceId, p.payload.drop 2)]) rest
          else serverReceiveAux st log rest
        | [] => serverReceiveAux st log rest
    else serverReceiveAux st log rest

/-- The receive entry point: fold the packets with an empty log. -/
def serverReceive (st : ServerState) (packets : List Packet) :
    Except String (ServerState × List (Nat × List Nat)) :=
  serverReceiveAux st [] packets

/-! ## Client connection (network/connection.py ClientConnection) -/

/-- Modelled from the spec: the client channel state the receive path
touches (channel.py absent); attribute payloads and invoked rpc
payloads are recorded as logs. -/
structure CChannel where
  receivedAttrs : List (List Nat)
  invokedCalls : List (List Nat)
deriving DecidableEq, Repr

/-- The state of a ClientConnection together with the registry graph it
reads and writes.  The class table maps a type name to the declared
default roles of that class (the type-register metaclass is external). -/
structure ClientState where
  graph : Graph
  channels : List (Nat × CChannel)
  ownId : Option Nat
  classTable : String → RolePair

/-- Embedding of Connection.is_owner on the client side. -/
def clientIsOwner (st : ClientState) (iid : Nat) : Bool :=
  match List.lookup iid st.graph, st.ownId with
  | some o, some own =>
    match o.uppermost with
    | some pid => pid == own
    | Option.none => false
  | _, _ => false

/-- The role switch of connection.py lines 157 to 160: local and
remote roles are exchanged in place. -/
def rswap (o : RObj) : RObj :=
  { o with roles := RolePair.mk o.roles.remoteRole o.roles.localRole }

/-- Embedding of ClientConnection.set_replication (connection.py lines
105 to 178).  Returns the new state and the list of log messages the
source prints.  Unknown channel ids on replication_update and
method_invoke are logged and the packet is dropped; replication_init
goes through create_or_return followed by the role switch of lines 157
to 160 and the host bookkeeping of lines 161 to 165; replication_del
looks the id up in the graph and requests unregistration, modelled as
the immediate graph and channel removal performed when the
unregistration signal is delivered. -/
def clientSetReplication (st : ClientState) (p : Packet) :
    Except String (ClientState × List String) :=
  let instanceId := unpackId p.payload
  if p.protocol == Protocol.replication_update then
    match List.lookup instanceId st.channels with
    | Option.none =>
      Except.ok (st, ["Unable to find network object with id " ++ toString instanceId])
    | some _ =>
      let chans2 := updateKey instanceId
        (fun ch => { ch with receivedAttrs := ch.receivedAttrs ++ [p.payload.drop 2] })
        st.channels
      Except.ok ({ st with channels := chans2 }, [])
  else if p.protocol == Protocol.method_invoke then
    match List.lookup instanceId st.channels with
    | Option.none =>
      Except.ok (st, ["Unable to find network object with id " ++ toString instanceId])
    | some _ =>
      if clientIsOwner st instanceId then
        let chans2 := updateKey instanceId
          (fun ch => { ch with invokedCalls := ch.invokedCalls ++ [p.payload.drop 2] })
          st.channels
        Except.ok ({ st with channels := chans2 }, [])
      else Except.ok (st, [])
  else if p.protocol == Protocol.replication_init then
    let idSize := 2
    let typeName := unpackString (p.payload.drop idSize)
    let typeSize := stringSize (p.payload.drop idSize)
    let isHost := unpackByte (p.payload.drop (idSize + typeSize)) != 0
    (createOrReturn st.classTable st.graph typeName instanceId).map fun res =>
      let g2 := updateKey res.2 rswap res.1
      ({ st with graph := g2, ownId := if isHost then some res.2 else st.ownId }, [])
  else
    match List.lookup instanceId st.graph with
    | Option.none => Except.ok (st, [])
    | some _ =>
      Except.ok ({ st with graph := removeKey instanceId st.graph,
                           channels := removeKey instanceId st.channels }, [])

/-! ## Signal bus (network/signals/signals.py Signal and CachedSignal) -/

/-- A firing of a cached signal: the optional target and a payload
token standing for the positional arguments. -/
structure Firing where
  target : Option Nat
  payload : Nat
deriving DecidableEq, Repr

/-- Class-level state of one cached signal class: applied global and
context subscribers, the staged subscription dictionaries, and the
firing cache.  Identifiers stand for the subscribing objects; the
callback bodies are observed through the delivery log that the
operations return.  Unsubscription and the parent and child tables are
not exercised by the modelled claims and are omitted. -/
structure CSigState where
  subscribers : List Nat
  isolated : List Nat
  toSubGlobal : List Nat
  toSubContext : List Nat
  cache : List Firing
deriving DecidableEq, Repr

/-- The empty signal class state produced by register_subtype. -/
def sigInitial : CSigState :=
  { subscribers := [], isolated := [], toSubGlobal := [], toSubContext := [], cache := [] }

/-- Embedding of CachedSignal.invoke with subscriber_data None
(signals.py lines 278 to 292): append the firing to the cache, deliver
to the matching context subscriber when a target is named (child
propagation omitted), then deliver to every global subscriber.  The
result pairs the new state with the delivery log. -/
def sigInvoke (st : CSigState) (f : Firing) : CSigState × List (Nat × Firing) :=
  let st2 := { st with cache := st.cache ++ [f] }
  let targeted :=
    match f.target with
    | some t => if st.isolated.contains t then [(t, f)] else []
    | Option.none => []
  let general := st.subscribers.map fun s => (s, f)
  (st2, targeted ++ general)

/-- Embedding of Signal.subscribe for a global listener (signals.py
lines 80 to 95): the subscription is staged until update_state. -/
def subscribeGlobal (st : CSigState) (g : Nat) : CSigState :=
  { st with toSubGlobal := st.toSubGlobal ++ [g] }

/-- Embedding of Signal.subscribe for a context listener. -/
def subscribeContext (st : CSigState) (c : Nat) : CSigState :=
  { st with toSubContext := st.toSubContext ++ [c] }

/-- Embedding of Signal.update_state on a cached signal class
(signals.py lines 97 to 151 with CachedSignal.on_subscribed, lines 294
to 303): staged global subscribers are applied in popitem order, last
staged first, and each newly applied global subscriber is immediately
replayed the whole cache in order; staged context subscribers are
applied without any replay. -/
def updateState (st : CSigState) : CSigState × List (Nat × Firing) :=
  let newGlobals := st.toSubGlobal.reverse
  let replays := (newGlobals.map fun g => st.cache.map fun f => (g, f)).flatten
  let newContexts := st.toSubContext.reverse
  ({ st with subscribers := st.subscribers ++ newGlobals,
             isolated := st.isolated ++ newContexts,
             toSubGlobal := [], toSubContext := [] },
   replays)

/-- Fire a list of firings in order, keeping only the state. -/
def runFirings (st : CSigState) (fs : List Firing) : CSigState :=
  fs.foldl (fun s f => (sigInvoke s f).1) st

/-- The replay deliveries observed when, after the firings fs have all
occurred on a fresh cached signal class, a global listener g and a
context listener c subscribe and update_graph runs. -/
def replayAfter (fs : List Firing) (g c : Nat) : List (Nat × Firing) :=
  (updateState (subscribeContext (subscribeGlobal (runFirings sigInitial fs) g) c)).2

/-! ## Physics (bge_network/physics.py) -/

/-- The rigid body fields copied by PhysicsSystem.copy_state
(physics.py lines 169 to 180); vector components are abstracted to
single integer tokens. -/
structure RigidBody where
  position : Int
  velocity : Int
  angular : Int
  rotation : Int
  collision_group : Nat
  collision_mask : Nat
deriving DecidableEq, Repr

/-- Embedding of PhysicsSystem.copy_state: every field of the target is
replaced by the corresponding source field. -/
def copyState (src _dst : RigidBody) : RigidBody :=
  { position := src.position, velocity := src.velocity, angular := src.angular,
    rotation := src.rotation, collision_group := src.collision_group,
    collision_mask := src.collision_mask }

/-- A pawn: its live rigid body state and the underscore-prefixed
network copy written by save_network_states. -/
structure PawnState where
  rigid : RigidBody
  shadow : RigidBody
deriving DecidableEq, Repr

/-- The live pawns of the world, by instance id. -/
abbrev World := List (Nat × PawnState)

/-- The ServerPhysics rewind state: the ordered tick to snapshot table
and the bound of one second of ticks (physics.py lines 186 to 190). -/
structure SPhys where
  rewind_data : List (Nat × List (Nat × RigidBody))
  rewind_length : Nat
deriving DecidableEq, Repr

/-- Embedding of ServerPhysics.rewind_to (physics.py lines 192 to 210):
a missing tick raises; otherwise each pawn found in the snapshot table
has its state restored by field copy. -/
def rewind_to (sp : SPhys) (world : World) (targetTick : Nat) : Except String World :=
  match List.lookup targetTick sp.rewind_data with
  | Option.none =>
    Except.error ("Could not rewind to tick " ++ toString targetTick)
  | some stateData =>
    Except.ok (world.map fun p =>
      match List.lookup p.1 stateData with
      | some s => (p.1, { p.2 with rigid := copyState s p.2.rigid })
      | Option.none => p)

/-- Embedding of ServerPhysics.save_network_states (physics.py lines
212 to 222): copy each live state into the network shadow copy. -/
def save_network_states (world : World) : World :=
  world.map fun p => (p.1, { p.2 with shadow := p.2.rigid })

/-- Embedding of ServerPhysics.save_pawn_states (physics.py lines 224
to 232): the body begins with a bare return statement, so the snapshot
insertion and the rewind-length cap below it are dead code and the
rewind table is returned unchanged. -/
def save_pawn_states (sp : SPhys) (_tick : Nat) (_world : World) : SPhys := sp

/-- Embedding of ServerPhysics.update (physics.py lines 234 to 241):
after the engine step, whose resulting world is a parameter here,
save_network_states runs and then save_pawn_states is called with the
current tick. -/
def physicsTick (sp : SPhys) (world : World) (tick : Nat) : SPhys × World :=
  let w2 := save_network_states world
  (save_pawn_states sp tick w2, w2)

/-! ## Scoped suspension (bge_network/physics.py protect_exemptions) -/

/-- Suspension flags of the live actors, by instance id. -/
abbrev ActorFlags := List (Nat × Bool)

/-- Read the suspended flag of an actor. -/
def getSusp (flags : ActorFlags) (a : Nat) : Bool :=
  (List.lookup a flags).getD false

/-- Embedding of the entry loop of PhysicsSystem.protect_exemptions
(physics.py lines 93 to 99): an already suspended exemption joins the
skip set; the rest are suspended. -/
def suspendPhase (flags : ActorFlags) : List Nat → ActorFlags × List Nat
  | [] => (flags, [])
  | a :: rest =>
    if getSusp flags a then
      let r := suspendPhase flags rest
      (r.1, a :: r.2)
    else
      suspendPhase (setKey a true flags) rest

/-- Embedding of the exit loop of protect_exemptions (physics.py lines
103 to 107): exemptions in the skip set are left alone, the rest are
unsuspended. -/
def restorePhase (flags : ActorFlags) (skip : List Nat) : List Nat → ActorFlags
  | [] => flags
  | a :: rest =>
    if skip.contains a then restorePhase flags skip rest
    else restorePhase (setKey a false flags) skip rest

/-- Embedding of the protect_exemptions context manager around a body.
The generator has no try or finally around its yield, so when the body
raises, the exception is thrown into the generator at the yield point
and the restore loop never runs; on a normal return the restore loop
runs.  The body maps the flags to new flags plus a raised marker. -/
def runProtected (flags : ActorFlags) (ex : List Nat)
    (body : ActorFlags → ActorFlags × Bool) : ActorFlags × Bool :=
  let entered := suspendPhase flags ex
  let r := body entered.1
  if r.2 then (r.1, true)
  else (restorePhase r.1 entered.2 ex, false)

/-! ## Server connection lifetime traces -/

/-- The events that drive a server connection over its lifetime: ticks
of send, replicable registration and unregistration delivered by the
signal bus, advancement of WorldInfo.elapsed, and rpc enqueueing by the
rpc descriptors. -/
inductive SEvent where
  | send (networkTick : Bool) (bw : Int)
  | register (r : Rep)
  | unregister (id2 : Nat)
  | setTime (t : Int)
  | enqueueRpc (id2 : Nat) (call : List Nat) (reliable : Bool)

/-- One step of a server connection trace; send events also produce a
packet collection. -/
def stepEvent (st : ServerState) : SEvent → ServerState × Option PacketCollection
  | SEvent.send nt bw =>
    let r := serverSend st nt bw
    (r.2, some r.1)
  | SEvent.register r => (notifyRegistration st r, Option.none)
  | SEvent.unregister i => (notifyUnregistration st i, Option.none)
  | SEvent.setTime t => ({ st with now := t }, Option.none)
  | SEvent.enqueueRpc i c rel =>
    let chans2 := updateKey i
      (fun ch => { ch with rpcQueue := ch.rpcQueue ++ [(c, rel)] }) st.channels
    ({ st with channels := chans2 }, Option.none)

/-- Run a list of events, collecting the packet collections the send
events produce, in order. -/
def runEvents (st : ServerState) : List SEvent → List PacketCollection × ServerState
  | [] => ([], st)
  | e :: rest =>
    let r := stepEvent st e
    let tail := runEvents r.1 rest
    (match r.2 with
     | some c => c :: tail.1
     | Option.none => tail.1, tail.2)

/-- A freshly constructed server connection: no channels, no
replicables, empty cached packet set. -/
def initServer (own : Option Nat) (rules : Option Nat → Nat → Bool) (t0 : Int) :
    ServerState :=
  { reps := [], channels := [], ownId := own, now := t0, rules := rules,
    cached_packets := [] }

/-- The wire id a packet for replicable id i carries: the u16 prefix of
its payload. -/
def wireId (i : Nat) : Nat := unpackId (packId i)

/-- Whether a packet is a replication_init whose payload addresses wire
id X. -/
def isInitFor (p : Packet) (X : Nat) : Bool :=
  p.protocol == Protocol.replication_init && unpackId p.payload == X

/-- Whether a packet is a replication_update whose payload addresses
wire id X. -/
def isUpdateFor (p : Packet) (X : Nat) : Bool :=
  p.protocol == Protocol.replication_update && unpackId p.payload == X

/-- Whether a collection contains a replication_init for wire id X. -/
def collHasInitFor (c : PacketCollection) (X : Nat) : Bool :=
  c.members.any fun q => isInitFor q X

/-- Whether a collection contains a replication_update for wire id X. -/
def collHasUpdateFor (c : PacketCollection) (X : Nat) : Bool :=
  c.members.any fun q => isUpdateFor q X

/-- Every replication_update in the packet list is preceded, among the
earlier packets of the same list, by a replication_init for the same
wire id, unless that id is covered by the context predicate cov. -/
def UpdatePreceded (ps : List Packet) (cov : Nat → Prop) : Prop :=
  ∀ j p X, ps[j]? = some p → isUpdateFor p X = true →
    ((ps.take j).any fun q => isInitFor q X) = true ∨ cov X

/-- Channels that are past their initial send are covered: the context
predicate holds for their wire id. -/
def InvInited (st : ServerState) (cov : Nat → Prop) : Prop :=
  ∀ i ch, List.lookup i st.channels = some ch → ch.is_initial = false → cov (wireId i)

/-- Fold invariant for a send in progress: the collection so far
satisfies UpdatePreceded, and every non-initial channel is covered by
the context or already has its init packet in the collection. -/
def AccInv (cov : Nat → Prop) (acc : SendAcc) : Prop :=
  UpdatePreceded acc.coll cov ∧
  ∀ i ch, List.lookup i acc.channels = some ch → ch.is_initial = false →
    cov (wireId i) ∨ (acc.coll.any fun q => isInitFor q (wireId i)) = true

/-! ## Concrete scenario states -/

/-- A complaining attribute whose update payload occupies 396 value
bytes, so one replication_update packet for it has 400 payload bytes. -/
def attrBig : Attr :=
  { value := 77, width := 396, cond := CondKind.ifComplaint,
    complainFlag := true, complained := true }

/-- A Player replicable of the given id and priority, period one, with
the single big complaining attribute. -/
def mkPlayerRep (i : Nat) (pr : Int) : Rep :=
  { iid := i, typeName := "Player",
    roles := { localRole := Role.authority, remoteRole := Role.simulated_proxy },
    relevantToOwner := true, priority := pr, period := 1,
    uppermost := Option.none, attrs := [attrBig] }

/-- A channel past its initial send, last replicated at time zero. -/
def chSteady : SChannel :=
  { lastSent := [Option.none], last_replication_time := 0,
    is_initial := false, rpcQueue := [] }

/-- Scenario S5: three replicables of priorities three, two and one,
equal staleness, each needing a 400 byte update, on one connection at
time one. -/
def stBandwidth : ServerState :=
  { reps := [mkPlayerRep 1 1, mkPlayerRep 2 2, mkPlayerRep 3 3],
    channels := [(1, chSteady), (2, chSteady), (3, chSteady)],
    ownId := Option.none, now := 1, rules := fun _ _ => true,
    cached_packets := [] }

/-- Scenario S3: a single replicable with id seven on one connection. -/
def stDelete : ServerState :=
  { reps := [mkPlayerRep 7 1], channels := [(7, chSteady)],
    ownId := Option.none, now := 1, rules := fun _ _ => true,
    cached_packets := [] }

/-- A server connection with no channels at all. -/
def stNoChannels : ServerState := initServer Option.none (fun _ _ => true) 0

/-- A class table giving every class the declared roles authority and
autonomous proxy. -/
def ctDefault : String → RolePair :=
  fun _ => { localRole := Role.authority, remoteRole := Role.autonomous_proxy }

/-- A fresh client connection with an empty graph and channel map. -/
def cstEmpty : ClientState :=
  { graph := [], channels := [], ownId := Option.none, classTable := ctDefault }

/-- A graph whose id seven is occupied by a locally created object. -/
def gOccupied : Graph :=
  [(7, { cls := "Local", localAuthority := true, static := false,
         roles := ctDefault "Local", uppermost := Option.none })]

/-- A graph whose id seven is occupied by a non local (static) object. -/
def gStatic : Graph :=
  [(7, { cls := "Server", localAuthority := false, static := true,
         roles := ctDefault "Server", uppermost := Option.none })]

/-- A replication_init packet for id seven and class Player, host flag
clear. -/
def c5pkt : Packet :=
  Packet.mk Protocol.replication_init
    (packId 7 ++ (packString "Player" ++ packByte false)) true

/-- The stored roles of object seven after a fresh client applies the
same replication_init twice in a row. -/
def c5afterTwo : Option RolePair :=
  match clientSetReplication cstEmpty c5pkt with
  | Except.ok r1 =>
    match clientSetReplication r1.1 c5pkt with
    | Except.ok r2 => (List.lookup 7 r2.1.graph).map RObj.roles
    | Except.error _ => Option.none
  | Except.error _ => Option.none

/-- Whether a packet is not a replication_del packet. -/
def noDelP (p : Packet) : Bool := p.protocol != Protocol.replication_del

/-- A rigid body at integer position x, at rest. -/
def rbAt (x : Int) : RigidBody :=
  { position := x, velocity := 0, angular := 0, rotation := 0,
    collision_group := 0, collision_mask := 0 }

/-- A pawn at integer position x with a zeroed network shadow copy. -/
def pawnAt (x : Int) : PawnState := { rigid := rbAt x, shadow := rbAt 0 }

/-- Scenario S4: the physics state after post-physics steps at ticks
100 (pawn at x five) and 120 (pawn at x twenty five), from a fresh
one-second rewind buffer. -/
def spAfterTicks : SPhys :=
  (physicsTick (physicsTick (SPhys.mk [] 60) [(1, pawnAt 5)] 100).1
    [(1, pawnAt 25)] 120).1

/-- Whether a packet is a method_invoke packet. -/
def isMethodP (p : Packet) : Bool := p.protocol == Protocol.method_invoke

/-- The replication bookkeeping of a channel map: per id, the
is_initial flag, the last replication time and the last-sent snapshot;
everything except the rpc queue. -/
def chanMeta (cs : List (Nat × SChannel)) : List (Nat × Bool × Int × List (Option Nat)) :=
  cs.map fun p => (p.1, p.2.is_initial, p.2.last_replication_time, p.2.lastSent)

/-- Scenario for the init-precedes-update trace theorem: register a
replicable with id seven, advance time past its update period, then
send on a network tick. -/
def c3events : List SEvent :=
  [SEvent.register (mkPlayerRep 7 1), SEvent.setTime 1, SEvent.send true 1024]

/-- The collections produced by the scenario trace. -/
def c3colls : List PacketCollection :=
  (runEvents (initServer Option.none (fun _ _ => true) 0) c3events).1

/-- The first collection of the scenario trace. -/
def c3coll : PacketCollection := c3colls.headD (PacketCollection.mk [])

/-- The replication_update packet of the scenario trace. -/
def c3upd : Packet :=
  c3coll.members.getD 1 (Packet.mk Protocol.replication_del [] false)

/-! ## Association list lemmas -/

theorem lookup_cons_pa {α : Type} (i k1 : Nat) (v : α) (tl : List (Nat × α)) :
    List.lookup i ((k1, v) :: tl) = if i = k1 then some v else List.lookup i tl := by
  by_cases h : i = k1
  · subst h
    simp [List.lookup]
  · have hb : (i == k1) = false := beq_eq_false_iff_ne.mpr h
    simp [List.lookup, hb, h]

theorem lookup_updateKey {α : Type} (k i : Nat) (f : α → α) (l : List (Nat × α)) :
    List.lookup i (updateKey k f l) =
      if i = k then (List.lookup i l).map f else List.lookup i l := by
  induction l with
  | nil => simp [updateKey]
  | cons hd tl ih =>
    obtain ⟨k1, v⟩ := hd
    have hstep : updateKey k f ((k1, v) :: tl)
        = (if k1 = k then (k1, f v) else (k1, v)) :: updateKey k f tl := by
      simp [updateKey]
    rw [hstep]
    by_cases h1 : k1 = k <;> by_cases h2 : i = k1
    · subst h1; subst h2
      simp [lookup_cons_pa]
    · subst h1
      simp [lookup_cons_pa, h2, ih]
    · subst h2
      simp [lookup_cons_pa, h1, Ne.symm h1]
    · by_cases h3 : i = k
      · subst h3
        simp [lookup_cons_pa, h1, h2, ih, Ne.symm h1]
      · simp [lookup_cons_pa, h1, h2, h3, ih]

theorem lookup_removeKey {α : Type} (k i : Nat) (l : List (Nat × α)) :
    List.lookup i (removeKey k l) =
      if i = k then Option.none else List.lookup i l := by
  induction l with
  | nil => simp [removeKey]
  | cons hd tl ih =>
    obtain ⟨k1, v⟩ := hd
    have hstep : removeKey k ((k1, v) :: tl)
        = if k1 = k then removeKey k tl else (k1, v) :: removeKey k tl := by
      by_cases h1 : k1 = k <;> simp [removeKey, List.filter_cons, h1]
    rw [hstep]
    by_cases h1 : k1 = k <;> by_cases h2 : i = k1
    · subst h1; subst h2
      simp [ih]
    · subst h1
      simp [ih, h2, lookup_cons_pa]
    · subst h2
      simp [lookup_cons_pa, h1, ih]
    · by_cases h3 : i = k
      · subst h3
        simp [lookup_cons_pa, h1, h2, ih, Ne.symm h1]
      · simp [lookup_cons_pa, h1, h2, h3, ih]

theorem lookup_append_pa {α : Type} (i : Nat) (l l2 : List (Nat × α)) :
    List.lookup i (l ++ l2) = (List.lookup i l).orElse (fun _ => List.lookup i l2) := by
  induction l with
  | nil => simp
  | cons hd tl ih =>
    obtain ⟨k1, v⟩ := hd
    by_cases h2 : i = k1 <;> simp_all [lookup_cons_pa]

theorem lookup_setKey_self {α : Type} (k : Nat) (v : α) (l : List (Nat × α)) :
    List.lookup k (setKey k v l) = some v := by
  by_cases h : (List.lookup k l).isSome
  · obtain ⟨w, hw⟩ := Option.isSome_iff_exists.mp h
    simp [setKey, h, lookup_updateKey, hw]
  · rw [Option.not_isSome_iff_eq_none] at h
    simp [setKey, h, lookup_append_pa, lookup_cons_pa]

theorem lookup_setKey_ne {α : Type} (k i : Nat) (v : α) (l : List (Nat × α))
    (h : i ≠ k) : List.lookup i (setKey k v l) = List.lookup i l := by
  by_cases hs : (List.lookup k l).isSome
  · simp [setKey, hs, lookup_updateKey, h]
  · rw [Option.not_isSome_iff_eq_none] at hs
    simp only [setKey, hs, Option.isSome_none, Bool.false_eq_true, if_false,
      lookup_append_pa, lookup_cons_pa, h, if_false]
    cases List.lookup i l <;> simp

theorem mem_keys_of_lookup {α : Type} {i : Nat} {v : α} {l : List (Nat × α)}
    (h : List.lookup i l = some v) : i ∈ l.map Prod.fst := by
  induction l with
  | nil => simp at h
  | cons hd tl ih =>
    obtain ⟨k1, w⟩ := hd
    rw [lookup_cons_pa] at h
    by_cases h2 : i = k1
    · simp [h2]
    · simp only [h2, if_false] at h
      simp [ih h]

theorem le_foldl_max (l : List Nat) (b : Nat) : b ≤ l.foldl max b := by
  induction l generalizing b with
  | nil => simp
  | cons hd tl ih =>
    calc b ≤ max b hd := Nat.le_max_left b hd
    _ ≤ tl.foldl max (max b hd) := ih (max b hd)

theorem mem_le_foldl_max {a : Nat} {l : List Nat} (b : Nat) (h : a ∈ l) :
    a ≤ l.foldl max b := by
  induction l generalizing b with
  | nil => simp at h
  | cons hd tl ih =>
    rcases List.mem_cons.mp h with h1 | h1
    · subst h1
      calc a ≤ max b a := Nat.le_max_right b a
      _ ≤ tl.foldl max (max b a) := le_foldl_max tl (max b a)
    · exact ih (max b hd) h1

theorem mem_lt_allocateId {α : Type} {i : Nat} {g : List (Nat × α)}
    (h : i ∈ g.map Prod.fst) : i < allocateId g := by
  unfold allocateId
  exact Nat.lt_succ_of_le (mem_le_foldl_max 0 h)

theorem lookup_allocateId {α : Type} (g : List (Nat × α)) :
    List.lookup (allocateId g) g = Option.none := by
  cases h : List.lookup (allocateId g) g with
  | none => rfl
  | some v =>
    exact absurd (mem_lt_allocateId (mem_keys_of_lookup h)) (lt_irrefl _)

/-! ## Scoped suspension lemmas -/

theorem contains_iff_pa (l : List Nat) (a : Nat) : (l.contains a) = true ↔ a ∈ l := by
  simp [List.contains_eq_any_beq, List.any_eq_true, beq_iff_eq]

theorem suspendPhase_lookup_not_mem :
    ∀ (ex : List Nat) (flags : ActorFlags) (a : Nat), a ∉ ex →
      List.lookup a (suspendPhase flags ex).1 = List.lookup a flags := by
  intro ex
  induction ex with
  | nil => intro flags a _; rfl
  | cons b rest ih =>
    intro flags a h
    have hab : a ≠ b := fun hh => h (hh ▸ List.mem_cons_self b rest)
    have harest : a ∉ rest := fun hh => h (List.mem_cons_of_mem b hh)
    by_cases hb : getSusp flags b = true
    · simp only [suspendPhase, hb, if_true]
      exact ih flags a harest
    · rw [Bool.not_eq_true] at hb
      simp only [suspendPhase, hb, Bool.false_eq_true, if_false]
      rw [ih _ a harest, lookup_setKey_ne _ _ _ _ hab]

theorem suspendPhase_getSusp_mem :
    ∀ (ex : List Nat) (flags : ActorFlags) (a : Nat), ex.Nodup → a ∈ ex →
      getSusp (suspendPhase flags ex).1 a = true := by
  intro ex
  induction ex with
  | nil => intro flags a _ h; simp at h
  | cons b rest ih =>
    intro flags a hnd h
    have hbrest : b ∉ rest := (List.nodup_cons.mp hnd).1
    have hndr : rest.Nodup := (List.nodup_cons.mp hnd).2
    rcases List.mem_cons.mp h with h1 | h1
    · subst h1
      by_cases hb : getSusp flags a = true
      · simp only [suspendPhase, hb, if_true]
        unfold getSusp
        rw [suspendPhase_lookup_not_mem rest flags a hbrest]
        exact hb
      · rw [Bool.not_eq_true] at hb
        simp only [suspendPhase, hb, Bool.false_eq_true, if_false]
        unfold getSusp
        rw [suspendPhase_lookup_not_mem rest _ a hbrest, lookup_setKey_self]
        rfl
    · by_cases hb : getSusp flags b = true
      · simp only [suspendPhase, hb, if_true]
        exact ih flags a hndr h1
      · rw [Bool.not_eq_true] at hb
        simp only [suspendPhase, hb, Bool.false_eq_true, if_false]
        exact ih _ a hndr h1

theorem suspendPhase_skip_iff :
    ∀ (ex : List Nat) (flags : ActorFlags) (a : Nat), ex.Nodup →
      (a ∈ (suspendPhase flags ex).2 ↔ a ∈ ex ∧ getSusp flags a = true) := by
  intro ex
  induction ex with
  | nil => intro flags a _; simp [suspendPhase]
  | cons b rest ih =>
    intro flags a hnd
    have hbrest : b ∉ rest := (List.nodup_cons.mp hnd).1
    have hndr : rest.Nodup := (List.nodup_cons.mp hnd).2
    by_cases hb : getSusp flags b = true
    · simp only [suspendPhase, hb, if_true]
      constructor
      · intro hmem
        rcases List.mem_cons.mp hmem with h1 | h1
        · exact ⟨h1 ▸ List.mem_cons_self b rest, h1 ▸ hb⟩
        · obtain ⟨hr, hg⟩ := (ih flags a hndr).mp h1
          exact ⟨List.mem_cons_of_mem b hr, hg⟩
      · rintro ⟨hmem, hg⟩
        rcases List.mem_cons.mp hmem with h1 | h1
        · exact h1 ▸ List.mem_cons_self b _
        · exact List.mem_cons_of_mem b ((ih flags a hndr).mpr ⟨h1, hg⟩)
    · rw [Bool.not_eq_true] at hb
      simp only [suspendPhase, hb, Bool.false_eq_true, if_false]
      rw [ih _ a hndr]
      constructor
      · rintro ⟨hr, hg⟩
        have hab : a ≠ b := fun hh => hbrest (hh ▸ hr)
        rw [getSusp, lookup_setKey_ne _ _ _ _ hab] at hg
        exact ⟨List.mem_cons_of_mem b hr, hg⟩
      · rintro ⟨hmem, hg⟩
        rcases List.mem_cons.mp hmem with h1 | h1
        · rw [h1] at hg
          rw [hg] at hb
          cases hb
        · have hab : a ≠ b := fun hh => hbrest (hh ▸ h1)
          refine ⟨h1, ?_⟩
          rw [getSusp, lookup_setKey_ne _ _ _ _ hab]
          exact hg

theorem restorePhase_lookup_not_mem :
    ∀ (ex : List Nat) (flags : ActorFlags) (skip : List Nat) (a : Nat), a ∉ ex →
      List.lookup a (restorePhase flags skip ex) = List.lookup a flags := by
  intro ex
  induction ex with
  | nil => intro flags skip a _; rfl
  | cons b rest ih =>
    intro flags skip a h
    have hab : a ≠ b := fun hh => h (hh ▸ List.mem_cons_self b rest)
    have harest : a ∉ rest := fun hh => h (List.mem_cons_of_mem b hh)
    by_cases hb : skip.contains b = true
    · simp only [restorePhase, hb, if_true]
      exact ih flags skip a harest
    · rw [Bool.not_eq_true] at hb
      simp only [restorePhase, hb, Bool.false_eq_true, if_false]
      rw [ih _ skip a harest, lookup_setKey_ne _ _ _ _ hab]

theorem restorePhase_lookup_skip :
    ∀ (ex : List Nat) (flags : ActorFlags) (skip : List Nat) (a : Nat), a ∈ skip →
      List.lookup a (restorePhase flags skip ex) = List.lookup a flags := by
  intro ex
  induction ex with
  | nil => intro flags skip a _; rfl
  | cons b rest ih =>
    intro flags skip a h
    by_cases hb : skip.contains b = true
    · simp only [restorePhase, hb, if_true]
      exact ih flags skip a h
    · rw [Bool.not_eq_true] at hb
      simp only [restorePhase, hb, Bool.false_eq_true, if_false]
      have hbn : b ∉ skip := fun hm => by
        rw [(contains_iff_pa skip b).mpr hm] at hb
        cases hb
      have hab : a ≠ b := fun hh => hbn (hh ▸ h)
      rw [ih _ skip a h, lookup_setKey_ne _ _ _ _ hab]

theorem restorePhase_getSusp_mem :
    ∀ (ex : List Nat) (flags : ActorFlags) (skip : List Nat) (a : Nat),
      ex.Nodup → a ∈ ex → a ∉ skip →
      getSusp (restorePhase flags skip ex) a = false := by
  intro ex
  induction ex with
  | nil => intro flags skip a _ h _; simp at h
  | cons b rest ih =>
    intro flags skip a hnd h hskip
    have hbrest : b ∉ rest := (List.nodup_cons.mp hnd).1
    have hndr : rest.Nodup := (List.nodup_cons.mp hnd).2
    rcases List.mem_cons.mp h with h1 | h1
    · subst h1
      have hb2 : skip.contains a = false := by
        cases hc : skip.contains a
        · rfl
        · exact absurd ((contains_iff_pa skip a).mp hc) hskip
      simp only [restorePhase, hb2, Bool.false_eq_true, if_false]
      unfold getSusp
      rw [restorePhase_lookup_not_mem rest _ skip a hbrest, lookup_setKey_self]
      rfl
    · by_cases hb : skip.contains b = true
      · simp only [restorePhase, hb, if_true]
        exact ih flags skip a hndr h1 hskip
      · rw [Bool.not_eq_true] at hb
        simp only [restorePhase, hb, Bool.false_eq_true, if_false]
        exact ih _ skip a hndr h1 hskip

/-- C9: the protect_exemptions scope suspends exactly the exempted
actors that were not already suspended at entry (parts one to three);
on a normal return the restore loop unsuspends the actors it suspended
and leaves the already suspended ones exactly as the body left them
(part four); but when the body raises, the generator has no finally, so
the restore loop is skipped entirely and the state is whatever the body
left (part five).  This is the claim amended on the error path: the
source does not restore on an exception. -/
theorem C9_protect_exemptions_scoped_restore (flags : ActorFlags) (ex : List Nat)
    (body : ActorFlags → ActorFlags × Bool) (hnd : ex.Nodup) :
    (∀ a ∈ ex, getSusp (suspendPhase flags ex).1 a = true) ∧
    (∀ a, a ∉ ex → List.lookup a (suspendPhase flags ex).1 = List.lookup a flags) ∧
    (∀ a, a ∈ (suspendPhase flags ex).2 ↔ a ∈ ex ∧ getSusp flags a = true) ∧
    ((body (suspendPhase flags ex).1).2 = false →
      runProtected flags ex body =
        (restorePhase (body (suspendPhase flags ex).1).1 (suspendPhase flags ex).2 ex,
         false) ∧
      (∀ a ∈ ex, getSusp flags a = false →
        getSusp (runProtected flags ex body).1 a = false) ∧
      (∀ a ∈ (suspendPhase flags ex).2,
        List.lookup a (runProtected flags ex body).1 =
          List.lookup a (body (suspendPhase flags ex).1).1)) ∧
    ((body (suspendPhase flags ex).1).2 = true →
      runProtected flags ex body = ((body (suspendPhase flags ex).1).1, true)) := by
  refine ⟨fun a ha => suspendPhase_getSusp_mem ex flags a hnd ha,
          fun a ha => suspendPhase_lookup_not_mem ex flags a ha,
          fun a => suspendPhase_skip_iff ex flags a hnd, ?_, ?_⟩
  · intro hbody
    have hrun : runProtected flags ex body =
        (restorePhase (body (suspendPhase flags ex).1).1 (suspendPhase flags ex).2 ex,
         false) := by
      show (if (body (suspendPhase flags ex).1).2 = true
            then ((body (suspendPhase flags ex).1).1, true)
            else (restorePhase (body (suspendPhase flags ex).1).1
                   (suspendPhase flags ex).2 ex, false)) = _
      rw [hbody]
      simp
    refine ⟨hrun, ?_, ?_⟩
    · intro a ha hg
      have hskip : a ∉ (suspendPhase flags ex).2 := fun hmem => by
        obtain ⟨_, hgt⟩ := (suspendPhase_skip_iff ex flags a hnd).mp hmem
        rw [hg] at hgt
        cases hgt
      rw [hrun]
      exact restorePhase_getSusp_mem ex _ _ a hnd ha hskip
    · intro a ha
      rw [hrun]
      exact restorePhase_lookup_skip ex _ _ a ha
  · intro hbody
    show (if (body (suspendPhase flags ex).1).2 = true
          then ((body (suspendPhase flags ex).1).1, true)
          else (restorePhase (body (suspendPhase flags ex).1).1
                 (suspendPhase flags ex).2 ex, false)) = _
    rw [hbody]
    simp

/-- C9 counterexample: with one unsuspended actor exempted and a body
that raises, the actor is left suspended after exit, refuting the claim
that every exit path unsuspends the actors the scope suspended. -/
theorem C9_counterexample_error_path_leaves_suspended :
    runProtected [(1, false)] [1] (fun s => (s, true)) = ([(1, true)], true) := by rfl

/-- C9 witness: a concrete run through the amended theorem with one
fresh and one already suspended actor and a normal exit. -/
theorem C9_witness :
    getSusp (runProtected [(1, false), (2, true)] [1, 2]
      (fun s => (s, false))).1 1 = false :=
  (((C9_protect_exemptions_scoped_restore [(1, false), (2, true)] [1, 2]
      (fun s => (s, false)) (by decide)).2.2.2.1 rfl).2.1) 1 (by decide) (by decide)

/-! ## Cached signal lemmas -/

theorem runFirings_cache (st : CSigState) (fs : List Firing) :
    (runFirings st fs).cache = st.cache ++ fs := by
  induction fs generalizing st with
  | nil => simp [runFirings]
  | cons f rest ih =>
    simp only [runFirings, List.foldl_cons] at ih ⊢
    rw [ih ((sigInvoke st f).1)]
    simp [sigInvoke]

theorem runFirings_toSubGlobal (st : CSigState) (fs : List Firing) :
    (runFirings st fs).toSubGlobal = st.toSubGlobal := by
  induction fs generalizing st with
  | nil => rfl
  | cons f rest ih =>
    simp only [runFirings, List.foldl_cons] at ih ⊢
    rw [ih ((sigInvoke st f).1)]
    simp [sigInvoke]

theorem runFirings_toSubContext (st : CSigState) (fs : List Firing) :
    (runFirings st fs).toSubContext = st.toSubContext := by
  induction fs generalizing st with
  | nil => rfl
  | cons f rest ih =>
    simp only [runFirings, List.foldl_cons] at ih ⊢
    rw [ih ((sigInvoke st f).1)]
    simp [sigInvoke]

/-- C7: after n firings on a fresh cached signal class, a global
listener that subscribes and has update_graph run receives exactly the
n cached firings replayed in their original order, targets included;
and a context listener subscribing at the same time receives none of
the replay. -/
theorem C7_cached_signal_replays_history (fs : List Firing) (g c : Nat) :
    replayAfter fs g c = fs.map (fun f => (g, f)) ∧
    (c ≠ g → (replayAfter fs g c).filter (fun d => d.1 == c) = []) := by
  have hmain : replayAfter fs g c = fs.map (fun f => (g, f)) := by
    unfold replayAfter updateState subscribeContext subscribeGlobal
    simp [runFirings_cache, runFirings_toSubGlobal, runFirings_toSubContext, sigInitial]
  refine ⟨hmain, fun hne => ?_⟩
  rw [hmain]
  clear hmain
  have hgc : (g == c) = false := beq_eq_false_iff_ne.mpr (Ne.symm hne)
  induction fs with
  | nil => rfl
  | cons f rest ih =>
    simp only [List.map_cons, List.filter_cons, hgc, Bool.false_eq_true, if_false]
    exact ih

/-- C7 witness: scenario S6 with two firings targeting replicables one
and two, a global listener ten and a context listener eleven. -/
theorem C7_witness :
    replayAfter [Firing.mk (some 1) 0, Firing.mk (some 2) 0] 10 11 =
      [(10, Firing.mk (some 1) 0), (10, Firing.mk (some 2) 0)] ∧
    (replayAfter [Firing.mk (some 1) 0, Firing.mk (some 2) 0] 10 11).filter
      (fun d => d.1 == 11) = [] := by
  have h := C7_cached_signal_replays_history
    [Firing.mk (some 1) 0, Firing.mk (some 2) 0] 10 11
  exact ⟨h.1, h.2 (by decide)⟩

/-- C8: the rewind buffer is never populated: save_pawn_states returns
before its insertion code, so after the post-physics steps of scenario
S4 the buffer is still empty and rewind_to raises for tick 100 exactly
as it does for the never saved tick 42; the claim that a recorded tick
can be restored contradicts the code. -/
theorem C8_rewind_buffer_never_populated :
    (∀ sp w t, (physicsTick sp w t).1.rewind_data = sp.rewind_data) ∧
    spAfterTicks.rewind_data = [] ∧
    rewind_to spAfterTicks [(1, pawnAt 25)] 100 =
      Except.error "Could not rewind to tick 100" ∧
    rewind_to spAfterTicks [(1, pawnAt 25)] 42 =
      Except.error "Could not rewind to tick 42" := by
  refine ⟨fun sp w t => rfl, rfl, ?_, ?_⟩ <;> rfl

/-! ## Send pipeline: no replication_del is ever produced -/

theorem methodStep_noDel (acc : SendAcc) (item : Rep × Bool × SChannel)
    (h : acc.coll.all noDelP = true) : (methodStep acc item).coll.all noDelP = true := by
  simp only [methodStep]
  split
  · simp only [List.all_append, h, Bool.true_and]
    simp only [List.all_eq_true]
    intro x hx
    rw [List.mem_map] at hx
    obtain ⟨c, hc, rfl⟩ := hx
    simp [noDelP]
  · exact h

theorem attributeEmit_noDel (now : Int) (ownId : Option Nat) (acc : SendAcc)
    (isOwnerFlag : Bool) (r : Rep) (ch : SChannel)
    (h : acc.coll.all noDelP = true) :
    (attributeEmit now ownId acc isOwnerFlag r ch).coll.all noDelP = true := by
  simp only [attributeEmit]
  split
  · split
    · simp [h, noDelP, initPacketFor]
    · exact h
  · split
    · simp [List.all_append, h, noDelP, initPacketFor]
    · simp [List.all_append, h, noDelP]

theorem attributeStep_noDel (now : Int) (rules : Option Nat → Nat → Bool)
    (ownId : Option Nat) (fb : Bool) (acc : SendAcc) (item : Rep × Bool × SChannel)
    (h : acc.coll.all noDelP = true) :
    (attributeStep now rules ownId fb acc item).coll.all noDelP = true := by
  simp only [attributeStep]
  split
  · split
    · exact h
    · exact attributeEmit_noDel now ownId acc item.2.1 _ _ h
  · exact h

theorem processItem_noDel (now : Int) (rules : Option Nat → Nat → Bool)
    (ownId : Option Nat) (nt fb : Bool) (acc : SendAcc) (item : Rep × Bool × SChannel)
    (h : acc.coll.all noDelP = true) :
    (processItem now rules ownId nt fb acc item).coll.all noDelP = true := by
  simp only [processItem]
  split
  · exact attributeStep_noDel now rules ownId fb _ item (methodStep_noDel acc item h)
  · exact methodStep_noDel acc item h

theorem foldl_processItem_noDel (now : Int) (rules : Option Nat → Nat → Bool)
    (ownId : Option Nat) (nt fb : Bool) :
    ∀ (items : List (Rep × Bool × SChannel)) (acc : SendAcc),
      acc.coll.all noDelP = true →
      ((items.foldl (processItem now rules ownId nt fb) acc).coll.all noDelP) = true := by
  intro items
  induction items with
  | nil => intro acc h; exact h
  | cons it rest ih =>
    intro acc h
    exact ih _ (processItem_noDel now rules ownId nt fb acc it h)

theorem serverSend_noDel (st : ServerState) (nt : Bool) (bw : Int) :
    ((serverSend st nt bw).1.members.all noDelP) = true := by
  simp only [serverSend]
  exact foldl_processItem_noDel st.now st.rules st.ownId nt _ (prioritised st)
    (SendAcc.mk [] st.channels st.reps) rfl

/-- C1: refuted as stated and evaluated at the S3 input.  On
ReplicableUnregistered the server connection does append a reliable
replication_del packet carrying the packed id to its cached_packets set
and drops the channel, but send never reads cached_packets: no send on
any state ever emits a replication_del packet, so the next send after
unregistering id seven returns a collection without the delete packet
(here the empty collection). -/
theorem C1_del_packet_enqueued_but_never_sent :
    (∀ st nt bw, ((serverSend st nt bw).1.members.all noDelP) = true) ∧
    (notifyUnregistration stDelete 7).cached_packets =
      [Packet.mk Protocol.replication_del (packId 7) true] ∧
    (serverSend (notifyUnregistration stDelete 7) true 1024).1.members = [] := by
  refine ⟨serverSend_noDel, by rfl, by rfl⟩

set_option maxRecDepth 4000 in
/-- C2: refuted as stated and evaluated at the S5 input.  The source
computes free_bandwidth once before the loop and accumulates
used_bandwidth without ever reading it, so with budget 900 and three
replicables of priorities three, two and one, each needing a 400 byte
update, send emits updates for all three in priority order, for a
collection larger than the budget, and clears every complaint bit; the
claim says priority one is deferred with its complaint bits kept. -/
theorem C2_bandwidth_budget_not_enforced :
    ((serverSend stBandwidth true 900).1.members.map
        fun p => (p.protocol, unpackId p.payload)) =
      [(Protocol.replication_update, 3), (Protocol.replication_update, 2),
       (Protocol.replication_update, 1)] ∧
    ((serverSend stBandwidth true 900).1.members.all
        fun p => p.payload.length == 400) = true ∧
    900 < (serverSend stBandwidth true 900).1.size ∧
    ((serverSend stBandwidth true 900).2.reps.all
        fun r => r.attrs.all fun a => !a.complained) = true := by
  exact ⟨by decide, by decide, by decide, by decide⟩

/-! ## Packer round trips -/

theorem unpackId_packId_append (i : Nat) (rest : List Nat) (h : i < 65536) :
    unpackId (packId i ++ rest) = i := by
  simp only [packId, List.cons_append, List.nil_append, unpackId]
  omega

theorem map_ofNat_toNat (l : List Char) : (l.map Char.toNat).map Char.ofNat = l := by
  induction l with
  | nil => rfl
  | cons c rest ih => simp [Char.ofNat_toNat, ih]

theorem length_map_toNat (s : String) : s.length = (s.toList.map Char.toNat).length := by
  rw [List.length_map]
  rfl

theorem unpackString_packString (s : String) (rest : List Nat) :
    unpackString (packString s ++ rest) = s := by
  simp only [packString, List.cons_append, unpackString]
  rw [length_map_toNat s, List.take_left, map_ofNat_toNat]
  rfl

theorem stringSize_packString (s : String) (rest : List Nat) :
    stringSize (packString s ++ rest) = s.length + 1 := by
  simp [packString, stringSize]

theorem drop_packId (i : Nat) (X : List Nat) : (packId i ++ X).drop 2 = X := by
  simp [packId]

theorem drop_packId_add (i k : Nat) (X : List Nat) :
    (packId i ++ X).drop (2 + k) = X.drop k := by
  have h2 : 2 + k = (k + 1) + 1 := by omega
  simp only [packId, List.cons_append, List.nil_append, h2, List.drop_succ_cons]

theorem drop_packString (s : String) (X : List Nat) :
    (packString s ++ X).drop (s.length + 1) = X := by
  simp only [packString, List.cons_append, List.drop_succ_cons]
  rw [length_map_toNat s, List.drop_left]

theorem unpackByte_packByte (b : Bool) : (unpackByte (packByte b) != 0) = b := by
  cases b <;> rfl

/-! ## Registry theorems -/

/-- C4: create_or_return on replication_init.  An unoccupied id yields
a fresh non static instance without local authority registered at that
id; an id occupied by a locally created object yields a fresh instance
claiming the id while the occupant is reassigned a previously unused
auto id different from the claimed one; an id occupied by a non local
object is returned unchanged; and a direct registration claim against a
non local occupant fails with the authority assertion. -/
theorem C4_create_or_return_identity_reconciliation
    (ct : String → RolePair) (g : Graph) (cname : String) (iid : Nat) :
    (List.lookup iid g = Option.none →
      createOrReturn ct g cname iid =
        Except.ok (g ++ [(iid, RObj.mk cname false false (ct cname) Option.none)],
          iid)) ∧
    (∀ occ, List.lookup iid g = some occ → occ.localAuthority = true →
      ∃ g2 k2, createOrReturn ct g cname iid = Except.ok (g2, iid) ∧
        List.lookup iid g2 = some (RObj.mk cname false false (ct cname) Option.none) ∧
        k2 ≠ iid ∧ List.lookup k2 g = Option.none ∧
        List.lookup k2 g2 = some { occ with localAuthority := true }) ∧
    (∀ occ, List.lookup iid g = some occ → occ.localAuthority = false →
      createOrReturn ct g cname iid = Except.ok (g, iid)) ∧
    (∀ obj occ, List.lookup iid g = some occ → occ.localAuthority = false →
      requestRegistration g obj iid =
        Except.error ("Authority over instance id " ++ toString iid ++
          " is unresolveable")) := by
  refine ⟨?_, ?_, ?_, ?_⟩
  · intro h
    simp [createOrReturn, requestRegistration, h, setKey, Except.map]
  · intro occ hocc hla
    have hlook1 : List.lookup iid (removeKey iid g) = Option.none := by
      rw [lookup_removeKey]
      simp
    have hset2 : setKey iid (RObj.mk cname false false (ct cname) Option.none)
        (removeKey iid g) =
        removeKey iid g ++ [(iid, RObj.mk cname false false (ct cname) Option.none)] := by
      simp [setKey, hlook1]
    have hlook2 : List.lookup iid
        (removeKey iid g ++ [(iid, RObj.mk cname false false (ct cname) Option.none)]) =
        some (RObj.mk cname false false (ct cname) Option.none) := by
      rw [lookup_append_pa, hlook1]
      simp [lookup_cons_pa]
    set g2 := removeKey iid g ++
      [(iid, RObj.mk cname false false (ct cname) Option.none)] with hg2
    set k2 := allocateId g2 with hk2
    have hik : iid < k2 := mem_lt_allocateId (mem_keys_of_lookup hlook2)
    have hlookk2g2 : List.lookup k2 g2 = Option.none := lookup_allocateId g2
    set g3 := g2 ++ [(k2, { occ with localAuthority := true })] with hg3
    have hlook3 : List.lookup iid g3 =
        some (RObj.mk cname false false (ct cname) Option.none) := by
      rw [hg3, lookup_append_pa, hlook2]
      rfl
    have hset4 : setKey iid (RObj.mk cname false false (ct cname) Option.none) g3 =
        updateKey iid (fun _ => RObj.mk cname false false (ct cname) Option.none) g3 := by
      simp [setKey, hlook3]
    refine ⟨updateKey iid (fun _ => RObj.mk cname false false (ct cname) Option.none) g3,
      k2, ?_, ?_, ?_, ?_, ?_⟩
    · simp only [createOrReturn, hocc, hla, if_true, requestRegistration, registerAuto]
      rw [hset2, hset4]
      rfl
    · rw [lookup_updateKey, if_pos rfl, hlook3]
      rfl
    · exact Nat.ne_of_gt hik
    · cases hcg : List.lookup k2 g with
      | none => rfl
      | some w =>
        exfalso
        have h1 : List.lookup k2 (removeKey iid g) = some w := by
          rw [lookup_removeKey, if_neg (Nat.ne_of_gt hik)]
          exact hcg
        have h2 : List.lookup k2 g2 = some w := by
          rw [hg2, lookup_append_pa, h1]
          rfl
        rw [h2] at hlookk2g2
        cases hlookk2g2
    · rw [lookup_updateKey, if_neg (Nat.ne_of_gt hik), hg3, lookup_append_pa,
        hlookk2g2]
      simp [lookup_cons_pa]
  · intro occ hocc hla
    simp [createOrReturn, hocc, hla]
  · intro obj occ hocc hla
    simp [requestRegistration, hocc, hla]

/-- C4 witness: creation on a free id, and a failing claim of an id
held by a non local occupant. -/
theorem C4_witness :
    createOrReturn ctDefault [] "Player" 7 =
      Except.ok ([] ++ [(7, RObj.mk "Player" false false (ctDefault "Player")
        Option.none)], 7) ∧
    requestRegistration gStatic
        (RObj.mk "Player" false false (ctDefault "Player") Option.none) 7 =
      Except.error ("Authority over instance id " ++ toString 7 ++
        " is unresolveable") := by
  constructor
  · exact (C4_create_or_return_identity_reconciliation ctDefault [] "Player" 7).1 rfl
  · exact (C4_create_or_return_identity_reconciliation ctDefault gStatic "Player"
      7).2.2.2 _ _ rfl rfl

/-! ## Client role swap -/

theorem clientSetReplication_init_eq (st : ClientState) (iid : Nat) (cname : String)
    (isHost : Bool) (hid : iid < 65536) :
    clientSetReplication st
        (Packet.mk Protocol.replication_init
          (packId iid ++ (packString cname ++ packByte isHost)) true) =
      (createOrReturn st.classTable st.graph cname iid).map fun res =>
        ({ st with graph := updateKey res.2 rswap res.1,
                   ownId := if isHost then some res.2 else st.ownId }, []) := by
  simp only [clientSetReplication]
  rw [show (Protocol.replication_init == Protocol.replication_update) = false from rfl]
  rw [show (Protocol.replication_init == Protocol.method_invoke) = false from rfl]
  rw [show (Protocol.replication_init == Protocol.replication_init) = true from rfl]
  simp only [Bool.false_eq_true, if_false, if_true]
  rw [unpackId_packId_append iid _ hid, drop_packId, unpackString_packString,
    stringSize_packString, drop_packId_add, drop_packString, unpackByte_packByte]

theorem requestRegistration_local_lookup (g : Graph) (obj : RObj) (iid : Nat)
    (occ : RObj) (hocc : List.lookup iid g = some occ)
    (hla : occ.localAuthority = true) :
    ∃ gf, requestRegistration g obj iid = Except.ok gf ∧
      List.lookup iid gf = some obj := by
  have hlook1 : List.lookup iid (removeKey iid g) = Option.none := by
    rw [lookup_removeKey]
    simp
  have hset2 : setKey iid obj (removeKey iid g) = removeKey iid g ++ [(iid, obj)] := by
    simp [setKey, hlook1]
  have hlook2 : List.lookup iid (removeKey iid g ++ [(iid, obj)]) = some obj := by
    rw [lookup_append_pa, hlook1]
    simp [lookup_cons_pa]
  set g3 := removeKey iid g ++ [(iid, obj)] ++
    [(allocateId (removeKey iid g ++ [(iid, obj)]),
      { occ with localAuthority := true })] with hg3
  have hlook3 : List.lookup iid g3 = some obj := by
    rw [hg3, lookup_append_pa, hlook2]
    rfl
  have hset4 : setKey iid obj g3 = updateKey iid (fun _ => obj) g3 := by
    simp [setKey, hlook3]
  refine ⟨updateKey iid (fun _ => obj) g3, ?_, ?_⟩
  · simp only [requestRegistration, hocc, hla, if_true, registerAuto]
    rw [hset2, hset4]
  · rw [lookup_updateKey, if_pos rfl, hlook3]
    rfl

/-- C5 as amended: applying replication_init swaps the target object
roles pair in place.  When the init creates a new instance, either
because the id is unoccupied (part one) or because a locally created
occupant is reconciled away (part two), the new instance starts from
the class-declared pair and ends with the swapped declared pair; but
when the id is held by a non locally created object, as with a repeated
init, the existing pair is swapped again (part three), so a second init
restores the declared, unswapped pair. -/
theorem C5_client_role_swap_in_place (st : ClientState) (iid : Nat)
    (cname : String) (isHost : Bool) (hid : iid < 65536) :
    (List.lookup iid st.graph = Option.none →
      clientSetReplication st
          (Packet.mk Protocol.replication_init
            (packId iid ++ (packString cname ++ packByte isHost)) true) =
        Except.ok
          ({ st with
              graph := updateKey iid rswap (st.graph ++
                [(iid, RObj.mk cname false false (st.classTable cname) Option.none)]),
              ownId := if isHost then some iid else st.ownId }, []) ∧
      (List.lookup iid (updateKey iid rswap (st.graph ++
          [(iid, RObj.mk cname false false (st.classTable cname) Option.none)]))).map
        RObj.roles =
        some (RolePair.mk (st.classTable cname).remoteRole
          (st.classTable cname).localRole)) ∧
    (∀ occ, List.lookup iid st.graph = some occ → occ.localAuthority = true →
      ∃ st2, clientSetReplication st
          (Packet.mk Protocol.replication_init
            (packId iid ++ (packString cname ++ packByte isHost)) true) =
        Except.ok (st2, []) ∧
      (List.lookup iid st2.graph).map RObj.roles =
        some (RolePair.mk (st.classTable cname).remoteRole
          (st.classTable cname).localRole)) ∧
    (∀ occ, List.lookup iid st.graph = some occ → occ.localAuthority = false →
      clientSetReplication st
          (Packet.mk Protocol.replication_init
            (packId iid ++ (packString cname ++ packByte isHost)) true) =
        Except.ok
          ({ st with
              graph := updateKey iid rswap st.graph,
              ownId := if isHost then some iid else st.ownId }, []) ∧
      (List.lookup iid (updateKey iid rswap st.graph)).map RObj.roles =
        some (RolePair.mk occ.roles.remoteRole occ.roles.localRole)) := by
  refine ⟨?_, ?_, ?_⟩
  · intro hfresh
    have hlook : List.lookup iid (st.graph ++
        [(iid, RObj.mk cname false false (st.classTable cname) Option.none)]) =
        some (RObj.mk cname false false (st.classTable cname) Option.none) := by
      rw [lookup_append_pa, hfresh]
      simp [lookup_cons_pa]
    constructor
    · rw [clientSetReplication_init_eq st iid cname isHost hid]
      simp only [createOrReturn, hfresh, requestRegistration, setKey, hfresh,
        Option.isSome_none, Bool.false_eq_true, if_false, Except.map]
    · rw [lookup_updateKey, if_pos rfl, hlook]
      rfl
  · intro occ hocc hla
    rw [clientSetReplication_init_eq st iid cname isHost hid]
    simp only [createOrReturn, hocc, hla, if_true]
    obtain ⟨gf, hgf, hlookf⟩ := requestRegistration_local_lookup st.graph
      (RObj.mk cname false false (st.classTable cname) Option.none) iid occ hocc hla
    rw [hgf]
    simp only [Except.map]
    refine ⟨_, rfl, ?_⟩
    rw [lookup_updateKey, if_pos rfl, hlookf]
    rfl
  · intro occ hocc hla
    constructor
    · rw [clientSetReplication_init_eq st iid cname isHost hid]
      simp only [createOrReturn, hocc, hla, Bool.false_eq_true, if_false, Except.map]
    · rw [lookup_updateKey, if_pos rfl, hocc]
      rfl

/-- C5 counterexample: a fresh client applies the same init packet for
id seven twice; after the second application the stored pair is the
class-declared pair, not its swap, because the in-place switch of
connection.py lines 157 to 160 ran twice, refuting the claim that every
applied replication_init leaves the roles equal to the swapped declared
pair. -/
theorem C5_counterexample_second_init_restores_declared :
    c5afterTwo = some (RolePair.mk Role.authority Role.autonomous_proxy) ∧
    ctDefault "Player" = RolePair.mk Role.authority Role.autonomous_proxy ∧
    c5afterTwo ≠ some (RolePair.mk (ctDefault "Player").remoteRole
      (ctDefault "Player").localRole) := by
  refine ⟨by decide, rfl, by decide⟩

/-- C5 witness: the fresh-id and repeated-init branches of the amended
theorem at concrete inputs. -/
theorem C5_witness :
    (List.lookup 7 (updateKey 7 rswap (cstEmpty.graph ++
        [(7, RObj.mk "Player" false false (cstEmpty.classTable "Player")
          Option.none)]))).map RObj.roles =
      some (RolePair.mk (cstEmpty.classTable "Player").remoteRole
        (cstEmpty.classTable "Player").localRole) ∧
    (List.lookup 7 (updateKey 7 rswap gStatic)).map RObj.roles =
      some (RolePair.mk Role.autonomous_proxy Role.authority) := by
  constructor
  · exact ((C5_client_role_swap_in_place cstEmpty 7 "Player" false
      (by decide)).1 rfl).2
  · exact ((C5_client_role_swap_in_place
      { graph := gStatic, channels := [], ownId := Option.none,
        classTable := ctDefault } 7 "Player" false (by decide)).2.2
      (RObj.mk "Server" false true (ctDefault "Server") Option.none)
      rfl rfl).2

/-! ## Unknown instance ids on receive -/

/-- C6 as amended: on the client receive path an update or rpc packet
whose id has no channel is logged and dropped with the connection state
unchanged; but on the server receive path the channel is fetched by
plain indexing, so the same situation raises a KeyError instead of
being dropped. -/
theorem C6_unknown_id_client_drops_server_raises :
    (∀ (st : ClientState) (p : Packet),
      p.protocol = Protocol.replication_update ∨ p.protocol = Protocol.method_invoke →
      List.lookup (unpackId p.payload) st.channels = Option.none →
      clientSetReplication st p =
        Except.ok (st,
          ["Unable to find network object with id " ++
            toString (unpackId p.payload)])) ∧
    (∀ (st : ServerState) (p : Packet) (rest : List Packet),
      p.protocol = Protocol.method_invoke →
      List.lookup (unpackId p.payload) st.channels = Option.none →
      serverReceive st (p :: rest) =
        Except.error ("KeyError: " ++ toString (unpackId p.payload))) := by
  constructor
  · intro st p hp hlook
    rcases hp with hp | hp
    · simp only [clientSetReplication, hp]
      rw [show (Protocol.replication_update == Protocol.replication_update) = true
        from rfl]
      simp only [if_true, hlook]
    · simp only [clientSetReplication, hp]
      rw [show (Protocol.method_invoke == Protocol.replication_update) = false
        from rfl]
      rw [show (Protocol.method_invoke == Protocol.method_invoke) = true from rfl]
      simp only [Bool.false_eq_true, if_false, if_true, hlook]
  · intro st p rest hp hlook
    simp only [serverReceive, serverReceiveAux, hp]
    rw [show (Protocol.method_invoke == Protocol.method_invoke) = true from rfl]
    simp only [if_true, hlook]

/-- C6 counterexample: a server connection with no channels receiving a
method_invoke for id five raises a KeyError rather than logging and
dropping the packet, refuting the claim for the server receive path. -/
theorem C6_counterexample_server_receive_raises :
    serverReceive stNoChannels
      [Packet.mk Protocol.method_invoke (packId 5 ++ [0]) true] =
      Except.error "KeyError: 5" := by rfl

/-- C6 witness: the client drop and the server error at concrete
states. -/
theorem C6_witness :
    clientSetReplication cstEmpty
        (Packet.mk Protocol.replication_update (packId 9 ++ [0]) true) =
      Except.ok (cstEmpty,
        ["Unable to find network object with id " ++
          toString (unpackId (packId 9 ++ [0]))]) ∧
    serverReceive stNoChannels
        [Packet.mk Protocol.method_invoke (packId 9 ++ [0]) true] =
      Except.error ("KeyError: " ++ toString (unpackId (packId 9 ++ [0]))) := by
  constructor
  · exact (C6_unknown_id_client_drops_server_raises).1 cstEmpty
      (Packet.mk Protocol.replication_update (packId 9 ++ [0]) true)
      (Or.inl rfl) rfl
  · exact (C6_unknown_id_client_drops_server_raises).2 stNoChannels
      (Packet.mk Protocol.method_invoke (packId 9 ++ [0]) true) [] rfl rfl

/-! ## Sends outside a network tick -/

theorem chanMeta_updateKey_rpcQueue (k : Nat) (cs : List (Nat × SChannel))
    (f : SChannel → SChannel)
    (hf : ∀ ch, (f ch).is_initial = ch.is_initial ∧
      (f ch).last_replication_time = ch.last_replication_time ∧
      (f ch).lastSent = ch.lastSent) :
    chanMeta (updateKey k f cs) = chanMeta cs := by
  induction cs with
  | nil => rfl
  | cons hd tl ih =>
    obtain ⟨k1, ch⟩ := hd
    by_cases h1 : k1 = k <;>
      simp [chanMeta, updateKey, h1, (hf ch).1, (hf ch).2.1, (hf ch).2.2] at ih ⊢ <;>
      simpa [chanMeta, updateKey] using ih

theorem methodStep_allMethod (acc : SendAcc) (item : Rep × Bool × SChannel)
    (h : acc.coll.all isMethodP = true) :
    (methodStep acc item).coll.all isMethodP = true := by
  simp only [methodStep]
  split
  · simp only [List.all_append, h, Bool.true_and]
    simp only [List.all_eq_true]
    intro x hx
    rw [List.mem_map] at hx
    obtain ⟨c, hc, rfl⟩ := hx
    simp [isMethodP]
  · exact h

theorem methodStep_chanMeta (acc : SendAcc) (item : Rep × Bool × SChannel) :
    chanMeta (methodStep acc item).channels = chanMeta acc.channels := by
  simp only [methodStep]
  split
  · show chanMeta (updateKey item.1.iid (fun c => { c with rpcQueue := [] })
      acc.channels) = chanMeta acc.channels
    exact chanMeta_updateKey_rpcQueue _ _ _ (fun ch => ⟨rfl, rfl, rfl⟩)
  · rfl

theorem methodStep_reps (acc : SendAcc) (item : Rep × Bool × SChannel) :
    (methodStep acc item).reps = acc.reps := by
  simp only [methodStep]
  split <;> rfl

theorem foldl_methodStep_inv (items : List (Rep × Bool × SChannel)) :
    ∀ acc : SendAcc, acc.coll.all isMethodP = true →
      ((items.foldl methodStep acc).coll.all isMethodP = true ∧
       chanMeta (items.foldl methodStep acc).channels = chanMeta acc.channels ∧
       (items.foldl methodStep acc).reps = acc.reps) := by
  induction items with
  | nil => intro acc h; exact ⟨h, rfl, rfl⟩
  | cons it rest ih =>
    intro acc h
    obtain ⟨h1, h2, h3⟩ := ih (methodStep acc it) (methodStep_allMethod acc it h)
    refine ⟨h1, ?_, ?_⟩
    · rw [List.foldl_cons, h2, methodStep_chanMeta]
    · rw [List.foldl_cons, h3, methodStep_reps]

theorem processItem_false_eq_methodStep (now : Int) (rules : Option Nat → Nat → Bool)
    (ownId : Option Nat) (fb : Bool) (acc : SendAcc) (item : Rep × Bool × SChannel) :
    processItem now rules ownId false fb acc item = methodStep acc item := by
  simp [processItem]

/-- C10: a send outside a network tick flushes only rpc packets: every
packet of the returned collection is a method_invoke, the replicable
graph (complaint state included) is untouched, and every channel keeps
its is_initial flag, last replication time and last-sent snapshot. -/
theorem C10_non_tick_send_only_method_invoke (st : ServerState) (bw : Int) :
    ((serverSend st false bw).1.members.all isMethodP) = true ∧
    (serverSend st false bw).2.reps = st.reps ∧
    chanMeta (serverSend st false bw).2.channels = chanMeta st.channels := by
  have hfold : (prioritised st).foldl
      (processItem st.now st.rules st.ownId false
        (decide (0 < max 0 (bw - (PacketCollection.mk []).size)))) (SendAcc.mk [] st.channels st.reps) =
      (prioritised st).foldl methodStep (SendAcc.mk [] st.channels st.reps) := by
    have hcongr : ∀ (l : List (Rep × Bool × SChannel)) (acc : SendAcc),
        l.foldl (processItem st.now st.rules st.ownId false
          (decide (0 < max 0 (bw - (PacketCollection.mk []).size)))) acc =
        l.foldl methodStep acc := by
      intro l
      induction l with
      | nil => intro acc; rfl
      | cons it rest ih =>
        intro acc
        rw [List.foldl_cons, List.foldl_cons, processItem_false_eq_methodStep, ih]
    exact hcongr (prioritised st) _
  obtain ⟨h1, h2, h3⟩ := foldl_methodStep_inv (prioritised st)
    (SendAcc.mk [] st.channels st.reps) rfl
  simp only [serverSend, hfold]
  exact ⟨h1, h3, h2⟩

/-! ## Init-precedes-update: packet list lemmas -/

theorem unpackId_packId_wire (i : Nat) (X : List Nat) :
    unpackId (packId i ++ X) = wireId i := by
  simp [packId, unpackId, wireId]

theorem any_append_left_mono {ps qs : List Packet} {P : Packet → Bool}
    (h : ps.any P = true) : (ps ++ qs).any P = true := by
  simp [List.any_append, h]

theorem any_cons_tail_mono {ps : List Packet} {q : Packet} {P : Packet → Bool}
    (h : ps.any P = true) : ((q :: ps).any P) = true := by
  simp [List.any_cons, h]

theorem UP_nil (cov : Nat → Prop) : UpdatePreceded [] cov := by
  intro j p X hj
  simp at hj

theorem UP_append (ps : List Packet) (q : Packet) (cov : Nat → Prop)
    (h : UpdatePreceded ps cov)
    (hq : ∀ X, isUpdateFor q X = true →
      (ps.any fun r => isInitFor r X) = true ∨ cov X) :
    UpdatePreceded (ps ++ [q]) cov := by
  intro j p X hj hupd
  by_cases hlt : j < ps.length
  · rw [List.getElem?_append_left hlt] at hj
    rcases h j p X hj hupd with hin | hc
    · left
      rw [List.take_append_of_le_length (le_of_lt hlt)]
      exact hin
    · exact Or.inr hc
  · have hge : ps.length ≤ j := Nat.le_of_not_lt hlt
    rw [List.getElem?_append_right hge] at hj
    cases hm : j - ps.length with
    | zero =>
      rw [hm] at hj
      simp at hj
      subst hj
      rcases hq X hupd with hin | hc
      · left
        have hjlen : j = ps.length := by omega
        rw [hjlen, List.take_left]
        exact hin
      · exact Or.inr hc
    | succ n =>
      rw [hm] at hj
      simp at hj

theorem UP_append_list (ps qs : List Packet) (cov : Nat → Prop)
    (h : UpdatePreceded ps cov)
    (hqs : ∀ q ∈ qs, ∀ X, isUpdateFor q X = false) :
    UpdatePreceded (ps ++ qs) cov := by
  induction qs generalizing ps with
  | nil => simpa using h
  | cons q rest ih =>
    have h2 : UpdatePreceded (ps ++ [q]) cov := by
      refine UP_append ps q cov h fun X hx => ?_
      rw [hqs q (List.mem_cons_self q rest) X] at hx
      cases hx
    have h3 := ih (ps ++ [q]) h2 fun r hr X => hqs r (List.mem_cons_of_mem q hr) X
    simpa [List.append_assoc] using h3

theorem UP_cons_nonupdate (ps : List Packet) (q : Packet) (cov : Nat → Prop)
    (h : UpdatePreceded ps cov) (hq : ∀ X, isUpdateFor q X = false) :
    UpdatePreceded (q :: ps) cov := by
  intro j p X hj hupd
  cases j with
  | zero =>
    simp at hj
    rw [← hj] at hupd
    rw [hq X] at hupd
    cases hupd
  | succ n =>
    rw [List.getElem?_cons_succ] at hj
    rcases h n p X hj hupd with hin | hc
    · left
      rw [List.take_succ_cons, List.any_cons, hin]
      simp
    · exact Or.inr hc

theorem isUpdateFor_method (iid : Nat) (call : List Nat) (rel : Bool) (X : Nat) :
    isUpdateFor (Packet.mk Protocol.method_invoke (packId iid ++ call) rel) X =
      false := by
  simp [isUpdateFor]

theorem isUpdateFor_init (ownId : Option Nat) (r : Rep) (X : Nat) :
    isUpdateFor (initPacketFor ownId r) X = false := by
  simp [isUpdateFor, initPacketFor]

theorem isInitFor_initPacketFor (ownId : Option Nat) (r : Rep) :
    isInitFor (initPacketFor ownId r) (wireId r.iid) = true := by
  unfold isInitFor initPacketFor
  rw [List.append_assoc, unpackId_packId_wire]
  simp

theorem isUpdateFor_update_iff (iid : Nat) (bs : List Nat) (X : Nat) :
    isUpdateFor (Packet.mk Protocol.replication_update (packId iid ++ bs) true) X =
      true ↔ X = wireId iid := by
  unfold isUpdateFor
  rw [unpackId_packId_wire]
  constructor
  · intro h
    simp only [Bool.and_eq_true, beq_iff_eq] at h
    exact h.2.symm
  · intro h
    subst h
    simp

/-! ## Init-precedes-update: pipeline invariants -/

theorem headD_filter_iid (rs : List Rep) (r0 : Rep) :
    ((rs.filter fun x => x.iid == r0.iid).headD r0).iid = r0.iid := by
  cases hf : rs.filter fun x => x.iid == r0.iid with
  | nil => simp
  | cons a tl =>
    have ha : a ∈ rs.filter fun x => x.iid == r0.iid := by
      rw [hf]
      exact List.mem_cons_self a tl
    have hpred := (List.mem_filter.mp ha).2
    rw [beq_iff_eq] at hpred
    simpa using hpred

theorem getAttributes_is_initial (r : Rep) (ch : SChannel) (f : Bool) (now : Int) :
    (getAttributes r ch f now).2.2.is_initial = false := rfl

theorem lookup_isSome_updateKey {α : Type} (k i : Nat) (f : α → α)
    (l : List (Nat × α)) :
    (List.lookup i (updateKey k f l)).isSome = (List.lookup i l).isSome := by
  rw [lookup_updateKey]
  split
  · simp
  · rfl

theorem methodStep_AccInv (cov : Nat → Prop) (acc : SendAcc)
    (item : Rep × Bool × SChannel) (h : AccInv cov acc) :
    AccInv cov (methodStep acc item) := by
  obtain ⟨h1, h2⟩ := h
  simp only [methodStep]
  split
  · constructor
    · refine UP_append_list _ _ _ h1 fun q hq X => ?_
      rw [List.mem_map] at hq
      obtain ⟨c, hc, rfl⟩ := hq
      exact isUpdateFor_method item.1.iid c.1 c.2 X
    · intro i ch hlook hinit
      rw [lookup_updateKey] at hlook
      by_cases hi : i = item.1.iid
      · rw [if_pos hi] at hlook
        cases hl : List.lookup i acc.channels with
        | none => rw [hl] at hlook; cases hlook
        | some ch0 =>
          rw [hl] at hlook
          have hch : ch = { ch0 with rpcQueue := [] } := by
            simpa using hlook.symm
          have hinit0 : ch0.is_initial = false := by
            rw [hch] at hinit
            exact hinit
          rcases h2 i ch0 hl hinit0 with hcov | hany
          · exact Or.inl hcov
          · exact Or.inr (any_append_left_mono hany)
      · rw [if_neg hi] at hlook
        rcases h2 i ch hlook hinit with hcov | hany
        · exact Or.inl hcov
        · exact Or.inr (any_append_left_mono hany)
  · exact ⟨h1, h2⟩

theorem attributeEmit_AccInv (now : Int) (ownId : Option Nat) (cov : Nat → Prop)
    (acc : SendAcc) (isOwnerFlag : Bool) (r : Rep) (ch : SChannel)
    (hch : List.lookup r.iid acc.channels = some ch)
    (h : AccInv cov acc) :
    AccInv cov (attributeEmit now ownId acc isOwnerFlag r ch) := by
  obtain ⟨h1, h2⟩ := h
  have hcover : cov (wireId r.iid) ∨
      ((if ch.is_initial then initPacketFor ownId r :: acc.coll else acc.coll).any
        fun q => isInitFor q (wireId r.iid)) = true := by
    by_cases hin : ch.is_initial = true
    · right
      rw [if_pos hin, List.any_cons, isInitFor_initPacketFor]
      rfl
    · rw [Bool.not_eq_true] at hin
      rcases h2 r.iid ch hch hin with hcov | hany
      · exact Or.inl hcov
      · right
        rw [if_neg (by simp [hin])]
        exact hany
  have hUP1 : UpdatePreceded
      (if ch.is_initial then initPacketFor ownId r :: acc.coll else acc.coll) cov := by
    split
    · exact UP_cons_nonupdate _ _ _ h1 (isUpdateFor_init ownId r)
    · exact h1
  have hmono1 : ∀ X, (acc.coll.any fun q => isInitFor q X) = true →
      ((if ch.is_initial then initPacketFor ownId r :: acc.coll else acc.coll).any
        fun q => isInitFor q X) = true := by
    intro X hX
    split
    · exact any_cons_tail_mono hX
    · exact hX
  simp only [attributeEmit]
  constructor
  · split
    · exact hUP1
    · refine UP_append _ _ _ hUP1 fun X hX => ?_
      have hXeq : X = wireId r.iid := (isUpdateFor_update_iff r.iid _ X).mp hX
      subst hXeq
      rcases hcover with hcov | hany
      · exact Or.inr hcov
      · exact Or.inl hany
  · intro i ch2 hlook hinit
    have hmono2 : ∀ X,
        ((if ch.is_initial then initPacketFor ownId r :: acc.coll else acc.coll).any
          fun q => isInitFor q X) = true →
        ((if (getAttributes r ch isOwnerFlag now).1.isEmpty = true then
            (if ch.is_initial then initPacketFor ownId r :: acc.coll else acc.coll)
          else
            (if ch.is_initial then initPacketFor ownId r :: acc.coll else acc.coll) ++
              [Packet.mk Protocol.replication_update
                (packId r.iid ++ (getAttributes r ch isOwnerFlag now).1) true]).any
          fun q => isInitFor q X) = true := by
      intro X hX
      split
      · exact hX
      · exact any_append_left_mono hX
    rw [lookup_updateKey] at hlook
    by_cases hi : i = r.iid
    · subst hi
      rcases hcover with hcov | hany
      · exact Or.inl hcov
      · exact Or.inr (hmono2 _ hany)
    · rw [if_neg hi] at hlook
      rcases h2 i ch2 hlook hinit with hcov | hany
      · exact Or.inl hcov
      · exact Or.inr (hmono2 _ (hmono1 _ hany))

theorem attributeStep_AccInv (now : Int) (rules : Option Nat → Nat → Bool)
    (ownId : Option Nat) (fb : Bool) (cov : Nat → Prop) (acc : SendAcc)
    (item : Rep × Bool × SChannel) (h : AccInv cov acc)
    (hsome : (List.lookup item.1.iid acc.channels).isSome = true) :
    AccInv cov (attributeStep now rules ownId fb acc item) := by
  simp only [attributeStep]
  split
  · split
    · exact h
    · have hiid := headD_filter_iid acc.reps item.1
      obtain ⟨ch0, hch0⟩ := Option.isSome_iff_exists.mp hsome
      have hch0h : List.lookup ((acc.reps.filter fun x =>
          x.iid == item.1.iid).headD item.1).iid acc.channels = some ch0 := by
        rw [hiid]
        exact hch0
      have hgd :
          (List.lookup ((acc.reps.filter fun x => x.iid == item.1.iid).headD
            item.1).iid acc.channels).getD item.2.2 = ch0 := by
        rw [hch0h]
        rfl
      rw [hgd]
      exact attributeEmit_AccInv now ownId cov acc item.2.1 _ ch0 hch0h h
  · exact h

theorem processItem_AccInv (now : Int) (rules : Option Nat → Nat → Bool)
    (ownId : Option Nat) (nt fb : Bool) (cov : Nat → Prop) (acc : SendAcc)
    (item : Rep × Bool × SChannel) (h : AccInv cov acc)
    (hsome : (List.lookup item.1.iid acc.channels).isSome = true) :
    AccInv cov (processItem now rules ownId nt fb acc item) := by
  have hm := methodStep_AccInv cov acc item h
  have hsome2 : (List.lookup item.1.iid (methodStep acc item).channels).isSome =
      true := by
    simp only [methodStep]
    split
    · rw [lookup_isSome_updateKey]
      exact hsome
    · exact hsome
  simp only [processItem]
  split
  · exact attributeStep_AccInv now rules ownId fb cov _ item hm hsome2
  · exact hm

theorem attributeEmit_channels (now : Int) (ownId : Option Nat) (acc : SendAcc)
    (f : Bool) (r : Rep) (ch : SChannel) :
    (attributeEmit now ownId acc f r ch).channels =
      updateKey r.iid (fun _ => (getAttributes r ch f now).2.2) acc.channels := rfl

theorem processItem_lookup_isSome (now : Int) (rules : Option Nat → Nat → Bool)
    (ownId : Option Nat) (nt fb : Bool) (acc : SendAcc)
    (item : Rep × Bool × SChannel) (i : Nat) :
    (List.lookup i (processItem now rules ownId nt fb acc item).channels).isSome =
      (List.lookup i acc.channels).isSome := by
  have hm : (List.lookup i (methodStep acc item).channels).isSome =
      (List.lookup i acc.channels).isSome := by
    simp only [methodStep]
    split
    · show (List.lookup i (updateKey item.1.iid
        (fun c => { c with rpcQueue := [] }) acc.channels)).isSome = _
      exact lookup_isSome_updateKey _ _ _ _
    · rfl
  simp only [processItem]
  split
  · simp only [attributeStep]
    split
    · split
      · exact hm
      · rw [attributeEmit_channels, lookup_isSome_updateKey]
        exact hm
    · exact hm
  · exact hm

theorem foldl_processItem_AccInv (now : Int) (rules : Option Nat → Nat → Bool)
    (ownId : Option Nat) (nt fb : Bool) (cov : Nat → Prop) :
    ∀ (items : List (Rep × Bool × SChannel)) (acc : SendAcc),
      AccInv cov acc →
      (∀ it ∈ items, (List.lookup it.1.iid acc.channels).isSome = true) →
      AccInv cov (items.foldl (processItem now rules ownId nt fb) acc) := by
  intro items
  induction items with
  | nil => intro acc h _; exact h
  | cons it rest ih =>
    intro acc h hsome
    rw [List.foldl_cons]
    refine ih _ (processItem_AccInv now rules ownId nt fb cov acc it h
      (hsome it (List.mem_cons_self it rest))) ?_
    intro it2 hit2
    rw [processItem_lookup_isSome]
    exact hsome it2 (List.mem_cons_of_mem it hit2)

theorem mem_insertDesc {α : Type} (le : α → α → Bool) (x y : α) (l : List α)
    (h : y ∈ insertDesc le x l) : y = x ∨ y ∈ l := by
  induction l with
  | nil => simpa [insertDesc] using h
  | cons z zs ih =>
    simp only [insertDesc] at h
    split at h
    · rcases List.mem_cons.mp h with h1 | h1
      · exact Or.inr (h1 ▸ List.mem_cons_self z zs)
      · rcases ih h1 with h2 | h2
        · exact Or.inl h2
        · exact Or.inr (List.mem_cons_of_mem z h2)
    · rcases List.mem_cons.mp h with h1 | h1
      · exact Or.inl h1
      · exact Or.inr h1

theorem mem_sortDesc {α : Type} (le : α → α → Bool) (l : List α) (y : α)
    (h : y ∈ sortDesc le l) : y ∈ l := by
  suffices hgen : ∀ (l2 : List α) (acc : List α),
      y ∈ l2.foldl (fun a x => insertDesc le x a) acc → y ∈ acc ∨ y ∈ l2 by
    rcases hgen l [] h with h1 | h1
    · simp at h1
    · exact h1
  intro l2
  induction l2 with
  | nil => intro acc h2; exact Or.inl h2
  | cons z zs ih =>
    intro acc h2
    rw [List.foldl_cons] at h2
    rcases ih _ h2 with h3 | h3
    · rcases mem_insertDesc le z y acc h3 with h4 | h4
      · exact Or.inr (h4 ▸ List.mem_cons_self z zs)
      · exact Or.inl h4
    · exact Or.inr (List.mem_cons_of_mem z h3)

theorem relevant_lookup_isSome (st : ServerState) (it : Rep × Bool × SChannel)
    (h : it ∈ relevantReplicables st) :
    (List.lookup it.1.iid st.channels).isSome = true := by
  simp only [relevantReplicables, List.mem_filterMap] at h
  obtain ⟨r, hr, hf⟩ := h
  by_cases hrole : (r.roles.remoteRole == Role.noRole) = true
  · rw [if_pos hrole] at hf
    cases hf
  · rw [if_neg hrole] at hf
    cases hl : List.lookup r.iid st.channels with
    | none =>
      rw [hl] at hf
      cases hf
    | some ch =>
      rw [hl] at hf
      have hit : it = (r, isOwner st r && r.relevantToOwner, ch) := by
        injection hf with h2
        exact h2.symm
      rw [hit]
      simp [hl]

theorem serverSend_UPI (st : ServerState) (cov : Nat → Prop) (nt : Bool) (bw : Int)
    (h : InvInited st cov) :
    UpdatePreceded (serverSend st nt bw).1.members cov ∧
    InvInited (serverSend st nt bw).2
      (fun X => cov X ∨ collHasInitFor (serverSend st nt bw).1 X = true) := by
  have hacc0 : AccInv cov (SendAcc.mk [] st.channels st.reps) :=
    ⟨UP_nil cov, fun i ch hl hi => Or.inl (h i ch hl hi)⟩
  have hsome0 : ∀ it ∈ prioritised st,
      (List.lookup it.1.iid (SendAcc.mk [] st.channels st.reps).channels).isSome =
        true :=
    fun it hit => relevant_lookup_isSome st it (mem_sortDesc _ _ it hit)
  obtain ⟨hUP, hCH⟩ := foldl_processItem_AccInv st.now st.rules st.ownId nt
    (decide (0 < max 0 (bw - ((PacketCollection.mk []).size : Int)))) cov
    (prioritised st) (SendAcc.mk [] st.channels st.reps) hacc0 hsome0
  constructor
  · exact hUP
  · intro i ch hl hi
    exact (hCH i ch hl hi).imp id id

/-! ## Init-precedes-update: the trace theorem -/

theorem runEvents_UPI :
    ∀ (events : List SEvent) (st : ServerState) (cov : Nat → Prop),
      InvInited st cov →
      ∀ (k : Nat) (coll : PacketCollection),
        (runEvents st events).1[k]? = some coll →
        ∀ (j : Nat) (p : Packet) (X : Nat),
          coll.members[j]? = some p → isUpdateFor p X = true →
          ((coll.members.take j).any fun q => isInitFor q X) = true ∨ cov X ∨
          ∃ k2, k2 < k ∧ ∃ c2, (runEvents st events).1[k2]? = some c2 ∧
            collHasInitFor c2 X = true := by
  intro events
  induction events with
  | nil =>
    intro st cov _ k coll hk
    simp [runEvents] at hk
  | cons e rest ih =>
    intro st cov h k coll hk j p X hj hupd
    cases e with
    | send nt bw =>
      obtain ⟨hUP, hInv⟩ := serverSend_UPI st cov nt bw h
      cases k with
      | zero =>
        have hcoll : coll = (serverSend st nt bw).1 := by
          simp [runEvents, stepEvent] at hk
          exact hk.symm
        subst hcoll
        rcases hUP j p X hj hupd with hin | hc
        · exact Or.inl hin
        · exact Or.inr (Or.inl hc)
      | succ k2 =>
        have hk2 : (runEvents (serverSend st nt bw).2 rest).1[k2]? = some coll := by
          simpa [runEvents, stepEvent] using hk
        rcases ih (serverSend st nt bw).2 _ hInv k2 coll hk2 j p X hj hupd with
          hin | hc | hprev
        · exact Or.inl hin
        · rcases hc with hc | hc
          · exact Or.inr (Or.inl hc)
          · refine Or.inr (Or.inr ⟨0, Nat.succ_pos k2, (serverSend st nt bw).1, ?_, hc⟩)
            simp [runEvents, stepEvent]
        · obtain ⟨k3, hk3, c3, hc3, hinit3⟩ := hprev
          refine Or.inr (Or.inr ⟨k3 + 1, Nat.succ_lt_succ hk3, c3, ?_, hinit3⟩)
          simpa [runEvents, stepEvent] using hc3
    | register r =>
      have hInv2 : InvInited (notifyRegistration st r) cov := by
        intro i ch hl hi
        simp only [notifyRegistration] at hl
        by_cases hir : i = r.iid
        · subst hir
          rw [lookup_setKey_self] at hl
          have : ch = freshChannel r.attrs.length := by injection hl with h2; exact h2.symm
          rw [this] at hi
          cases hi
        · rw [lookup_setKey_ne _ _ _ _ hir] at hl
          exact h i ch hl hi
      have hk2 : (runEvents (notifyRegistration st r) rest).1[k]? = some coll := by
        simpa [runEvents, stepEvent] using hk
      rcases ih (notifyRegistration st r) cov hInv2 k coll hk2 j p X hj hupd with
        hin | hc | hprev
      · exact Or.inl hin
      · exact Or.inr (Or.inl hc)
      · obtain ⟨k3, hk3, c3, hc3, hinit3⟩ := hprev
        refine Or.inr (Or.inr ⟨k3, hk3, c3, ?_, hinit3⟩)
        simpa [runEvents, stepEvent] using hc3
    | unregister i2 =>
      have hInv2 : InvInited (notifyUnregistration st i2) cov := by
        intro i ch hl hi
        simp only [notifyUnregistration] at hl
        rw [lookup_removeKey] at hl
        by_cases hir : i = i2
        · rw [if_pos hir] at hl
          cases hl
        · rw [if_neg hir] at hl
          exact h i ch hl hi
      have hk2 : (runEvents (notifyUnregistration st i2) rest).1[k]? = some coll := by
        simpa [runEvents, stepEvent] using hk
      rcases ih (notifyUnregistration st i2) cov hInv2 k coll hk2 j p X hj hupd with
        hin | hc | hprev
      · exact Or.inl hin
      · exact Or.inr (Or.inl hc)
      · obtain ⟨k3, hk3, c3, hc3, hinit3⟩ := hprev
        refine Or.inr (Or.inr ⟨k3, hk3, c3, ?_, hinit3⟩)
        simpa [runEvents, stepEvent] using hc3
    | setTime t =>
      have hInv2 : InvInited { st with now := t } cov := fun i ch hl hi => h i ch hl hi
      have hk2 : (runEvents { st with now := t } rest).1[k]? = some coll := by
        simpa [runEvents, stepEvent] using hk
      rcases ih { st with now := t } cov hInv2 k coll hk2 j p X hj hupd with
        hin | hc | hprev
      · exact Or.inl hin
      · exact Or.inr (Or.inl hc)
      · obtain ⟨k3, hk3, c3, hc3, hinit3⟩ := hprev
        refine Or.inr (Or.inr ⟨k3, hk3, c3, ?_, hinit3⟩)
        simpa [runEvents, stepEvent] using hc3
    | enqueueRpc i2 call rel =>
      have hInv2 : InvInited (stepEvent st (SEvent.enqueueRpc i2 call rel)).1 cov := by
        intro i ch hl hi
        simp only [stepEvent] at hl
        rw [lookup_updateKey] at hl
        by_cases hir : i = i2
        · rw [if_pos hir] at hl
          cases hl0 : List.lookup i st.channels with
          | none => rw [hl0] at hl; cases hl
          | some ch0 =>
            rw [hl0] at hl
            have hch : ch = { ch0 with rpcQueue := ch0.rpcQueue ++ [(call, rel)] } := by
              simpa using hl.symm
            rw [hch] at hi
            exact h i ch0 hl0 hi
        · rw [if_neg hir] at hl
          exact h i ch hl hi
      have hk2 : (runEvents (stepEvent st (SEvent.enqueueRpc i2 call rel)).1
          rest).1[k]? = some coll := by
        simpa [runEvents] using hk
      rcases ih _ cov hInv2 k coll hk2 j p X hj hupd with hin | hc | hprev
      · exact Or.inl hin
      · exact Or.inr (Or.inl hc)
      · obtain ⟨k3, hk3, c3, hc3, hinit3⟩ := hprev
        refine Or.inr (Or.inr ⟨k3, hk3, c3, ?_, hinit3⟩)
        simpa [runEvents] using hc3

/-- C3: init precedes update over whole connection lifetimes.  From a
fresh server connection, for any event trace of registrations,
unregistrations, time advances, rpc enqueues and sends, every
replication_update packet in any produced collection is preceded,
earlier in the same collection, by a replication_init for the same wire
id, or some earlier collection of the trace already carried that init;
a connection never emits replication_update for a replicable it has not
emitted replication_init for. -/
theorem C3_init_precedes_update (own : Option Nat)
    (rules : Option Nat → Nat → Bool) (t0 : Int) (events : List SEvent)
    (k : Nat) (coll : PacketCollection) (j : Nat) (p : Packet) (X : Nat)
    (hk : (runEvents (initServer own rules t0) events).1[k]? = some coll)
    (hj : coll.members[j]? = some p)
    (hupd : isUpdateFor p X = true) :
    ((coll.members.take j).any fun q => isInitFor q X) = true ∨
    ∃ k2, k2 < k ∧ ∃ c2,
      (runEvents (initServer own rules t0) events).1[k2]? = some c2 ∧
      collHasInitFor c2 X = true := by
  have h0 : InvInited (initServer own rules t0) (fun _ => False) := by
    intro i ch hl
    simp [initServer] at hl
  rcases runEvents_UPI events _ _ h0 k coll hk j p X hj hupd with hin | hc | hprev
  · exact Or.inl hin
  · cases hc
  · exact Or.inr hprev

set_option maxRecDepth 8000 in
/-- C3 witness: the concrete trace that registers id seven, advances
time and sends; the produced collection is an init followed by an
update, and the update at index one is preceded by the init. -/
theorem C3_witness :
    ((c3coll.members.take 1).any fun q => isInitFor q 7) = true := by
  rcases C3_init_precedes_update Option.none (fun _ _ => true) 0 c3events 0 c3coll
    1 c3upd 7 (by decide) (by decide) (by decide) with h | h
  · exact h
  · obtain ⟨k2, hk2, _⟩ := h
    exact absurd hk2 (Nat.not_lt_zero k2)

end PyAuth
